import Mathlib

/-!
Verification development for the `ara` 2D vector-graphics tessellation core.

The Rust source is shallowly embedded in Lean: `f32` coordinates are modelled
as exact rationals (`ℚ`), machine integers as `ℕ`/`ℤ`, and panics as
`Except`-style errors.  Definitions follow the corresponding Rust functions;
where a definition models code that lives in a crate module not present in the
repository snapshot (the `ara_math` crate, `paint::graphics_instruction`,
`paint::mesh`), its doc comment says so and the definition follows the
specification's description of that module.
-/

namespace Ara

/-- 2D point with exact rational coordinates (models `ara_math::Vec2<f32>`,
used as `Point` throughout the paint/path modules). -/
structure Point where
  x : ℚ
  y : ℚ
deriving DecidableEq, Repr

instance : Add Point := ⟨fun a b => ⟨a.x + b.x, a.y + b.y⟩⟩

instance : Sub Point := ⟨fun a b => ⟨a.x - b.x, a.y - b.y⟩⟩

instance : Inhabited Point := ⟨⟨0, 0⟩⟩

/-- RGBA color with 8-bit channels (models `paint::color::Color`). -/
structure Color where
  r : ℕ
  g : ℕ
  b : ℕ
  a : ℕ
deriving DecidableEq, Repr

/-- `Color::is_transparent`: the alpha channel is zero. -/
def Color.isTransparent (c : Color) : Bool := c.a == 0

def Color.TRANSPARENT : Color := ⟨0, 0, 0, 0⟩

def Color.WHITE : Color := ⟨255, 255, 255, 255⟩

def Color.RED : Color := ⟨255, 0, 0, 255⟩

/-- `paint::brush::FillStyle`. -/
structure FillStyle where
  color : Color
deriving DecidableEq, Repr

/-- `paint::brush::LineJoin`. -/
inductive LineJoin
  | miter
  | bevel
  | round
deriving DecidableEq, Repr

/-- `paint::brush::LineCap`. -/
inductive LineCap
  | round
  | square
  | butt
deriving DecidableEq, Repr

/-- `paint::brush::StrokeStyle`. -/
structure StrokeStyle where
  color : Color
  lineWidth : ℕ
  lineJoin : LineJoin
  lineCap : LineCap
  allowOverlap : Bool
deriving DecidableEq, Repr

/-- `StrokeStyle::default()`. -/
def StrokeStyle.default : StrokeStyle :=
  ⟨Color.WHITE, 2, LineJoin.miter, LineCap.butt, false⟩

/-- `paint::brush::Brush`: fill style + stroke style + antialias flag. -/
structure Brush where
  fillStyle : FillStyle
  strokeStyle : StrokeStyle
  antialias : Bool
deriving DecidableEq, Repr

/-- `Brush::default()`: transparent fill and stroke, no antialias. -/
def Brush.default : Brush :=
  ⟨⟨Color.TRANSPARENT⟩, { StrokeStyle.default with color := Color.TRANSPARENT }, false⟩

/-- `Brush::filled`. -/
def Brush.filled (c : Color) : Brush := { Brush.default with fillStyle := ⟨c⟩ }

/-- `Brush::get_fill_color`. -/
def Brush.getFillColor (b : Brush) : Color := b.fillStyle.color

/-- `Brush::get_stroke_color` — as written in `paint/brush.rs` it reads
`self.fill_style.color`. -/
def Brush.getStrokeColor (b : Brush) : Color := b.fillStyle.color

/-- `Brush::stroke_color`: sets the stroke style's color. -/
def Brush.strokeColor (b : Brush) (c : Color) : Brush :=
  { b with strokeStyle := { b.strokeStyle with color := c } }

/-- `Brush::fill_color`: sets the fill style's color. -/
def Brush.fillColor (b : Brush) (c : Color) : Brush :=
  { b with fillStyle := { b.fillStyle with color := c } }

/-- `Brush::nothing_to_draw`: both fill and stroke colors are transparent. -/
def Brush.nothingToDraw (b : Brush) : Bool :=
  b.fillStyle.color.isTransparent && b.strokeStyle.color.isTransparent

/-- C9: For every brush, `Brush::get_stroke_color` returns the brush's fill
color (`fill_style.color`) and not its stroke color: it always agrees with
`get_fill_color`, even after `stroke_color` has set a stroke color different
from the fill color (the third conjunct shows the stroke color really was
stored). -/
theorem c9_stroke_color_getter (b : Brush) (c : Color) :
    b.getStrokeColor = b.getFillColor ∧
    (b.strokeColor c).getStrokeColor = b.getFillColor ∧
    (b.strokeColor c).strokeStyle.color = c :=
  ⟨rfl, rfl, rfl⟩

/-! ### Path-builder debug validator (`path/builder.rs`, `DebugPathValidator`) -/

/-- The `DebugPathValidator` state: whether a subpath is currently open.
(The Rust field exists only under `debug_assertions`; this models a debug
build.) -/
structure DebugPathValidator where
  inSubpath : Bool
deriving DecidableEq, Repr

/-- Assertion message of `DebugPathValidator::begin`. -/
def msgBeginInSubpath : String :=
  "Please end the current subpath with `end(<close>)` or `close()` before starting a new one"

/-- Assertion message of `DebugPathValidator::end`. -/
def msgEndIdle : String := "Please start a new subpath with `begin()`"

/-- Assertion message of `DebugPathValidator::edge`. -/
def msgEdgeIdle : String :=
  "Please begin a new subpath with begin() to continue this operation"

/-- Assertion message of `DebugPathValidator::build`. -/
def msgBuildInSubpath : String :=
  "Please end the current subpath with `end(<close>)` or `close()` before building"

/-- `DebugPathValidator::begin`: asserts not in a subpath, then enters one.
A failed assertion (a debug-build panic) is modelled as `.error`. -/
def DebugPathValidator.vBegin (v : DebugPathValidator) :
    Except String DebugPathValidator :=
  if v.inSubpath then .error msgBeginInSubpath else .ok ⟨true⟩

/-- `DebugPathValidator::end`: asserts in a subpath, then leaves it. -/
def DebugPathValidator.vEnd (v : DebugPathValidator) :
    Except String DebugPathValidator :=
  if v.inSubpath then .ok ⟨false⟩ else .error msgEndIdle

/-- `DebugPathValidator::edge`: asserts in a subpath (state unchanged). -/
def DebugPathValidator.vEdge (v : DebugPathValidator) :
    Except String DebugPathValidator :=
  if v.inSubpath then .ok v else .error msgEdgeIdle

/-- `DebugPathValidator::build`: asserts not in a subpath (state unchanged);
called by `PathBuilder::build` and `PathBuilder::path_events`. -/
def DebugPathValidator.vBuild (v : DebugPathValidator) :
    Except String Unit :=
  if v.inSubpath then .error msgBuildInSubpath else .ok ()

/-- The `PathBuilder` operations that consult the validator: `begin` calls
`validator.begin()`, the three edge operations call `validator.edge()`, and
`end`/`close` call `validator.end()`. -/
inductive BuilderOp
  | begin (p : Point)
  | lineTo (p : Point)
  | quadraticTo (ctrl p : Point)
  | cubicTo (ctrl1 ctrl2 p : Point)
  | endOp (close : Bool)
deriving DecidableEq, Repr

/-- One builder operation's validator call. -/
def validatorStep (op : BuilderOp) (v : DebugPathValidator) :
    Except String DebugPathValidator :=
  match op with
  | .begin _ => v.vBegin
  | .lineTo _ => v.vEdge
  | .quadraticTo _ _ => v.vEdge
  | .cubicTo _ _ _ => v.vEdge
  | .endOp _ => v.vEnd

/-- Run a sequence of builder operations through the validator, stopping at
the first assertion failure. -/
def runValidator : List BuilderOp → DebugPathValidator →
    Except String DebugPathValidator
  | [], v => .ok v
  | op :: rest, v =>
    match validatorStep op v with
    | .ok v' => runValidator rest v'
    | .error e => .error e

/-- Correct builder usage per the contract
`Idle → begin → (edge)* → end → Idle`; the Boolean argument is the current
state (`true` = in a subpath) and a valid sequence must finish Idle. -/
def validUsage : Bool → List BuilderOp → Bool
  | false, [] => true
  | false, .begin _ :: rest => validUsage true rest
  | true, .lineTo _ :: rest => validUsage true rest
  | true, .quadraticTo _ _ :: rest => validUsage true rest
  | true, .cubicTo _ _ _ :: rest => validUsage true rest
  | true, .endOp _ :: rest => validUsage false rest
  | _, _ => false

theorem runValidator_of_validUsage :
    ∀ (ops : List BuilderOp) (s : Bool), validUsage s ops = true →
      runValidator ops ⟨s⟩ = .ok ⟨false⟩ := by
  intro ops
  induction ops with
  | nil =>
    intro s h
    cases s with
    | false => rfl
    | true => simp [validUsage] at h
  | cons op rest ih =>
    intro s h
    cases s with
    | false =>
      cases op with
      | begin p =>
        have := ih true (by simpa [validUsage] using h)
        simpa [runValidator, validatorStep, DebugPathValidator.vBegin] using this
      | lineTo p2 => simp [validUsage] at h
      | quadraticTo c t => simp [validUsage] at h
      | cubicTo c1 c2 t => simp [validUsage] at h
      | endOp c => simp [validUsage] at h
    | true =>
      cases op with
      | begin p => simp [validUsage] at h
      | lineTo p2 =>
        have := ih true (by simpa [validUsage] using h)
        simpa [runValidator, validatorStep, DebugPathValidator.vEdge] using this
      | quadraticTo c t =>
        have := ih true (by simpa [validUsage] using h)
        simpa [runValidator, validatorStep, DebugPathValidator.vEdge] using this
      | cubicTo c1 c2 t =>
        have := ih true (by simpa [validUsage] using h)
        simpa [runValidator, validatorStep, DebugPathValidator.vEdge] using this
      | endOp c =>
        have := ih false (by simpa [validUsage] using h)
        simpa [runValidator, validatorStep, DebugPathValidator.vEnd] using this

/-- C8: In debug builds every path-builder contract violation fails fast with
an assertion: an edge-adding operation while Idle panics, `begin` while
already in a subpath panics, `end` without a begun subpath panics, and
building/replaying events with an unterminated subpath panics; and under
correct `Idle → begin → (edges)* → end` usage none of these assertions fire
(the validator accepts the whole sequence and ends Idle, where `build` also
succeeds). -/
theorem c8_validator_fail_fast (p q r : Point) :
    (DebugPathValidator.vEdge ⟨false⟩ = .error msgEdgeIdle ∧
      validatorStep (.lineTo p) ⟨false⟩ = .error msgEdgeIdle ∧
      validatorStep (.quadraticTo p q) ⟨false⟩ = .error msgEdgeIdle ∧
      validatorStep (.cubicTo p q r) ⟨false⟩ = .error msgEdgeIdle) ∧
    DebugPathValidator.vBegin ⟨true⟩ = .error msgBeginInSubpath ∧
    DebugPathValidator.vEnd ⟨false⟩ = .error msgEndIdle ∧
    DebugPathValidator.vBuild ⟨true⟩ = .error msgBuildInSubpath ∧
    (∀ ops : List BuilderOp, validUsage false ops = true →
      runValidator ops ⟨false⟩ = .ok ⟨false⟩ ∧
      DebugPathValidator.vBuild ⟨false⟩ = .ok ()) := by
  refine ⟨⟨rfl, rfl, rfl, rfl⟩, rfl, rfl, rfl, ?_⟩
  intro ops h
  exact ⟨runValidator_of_validUsage ops false h, rfl⟩

/-- C8 witness: the misuse conjuncts at a concrete point, and the
correct-usage conjunct at the concrete sequence
`begin (0,0); line_to (1,1); close`. -/
theorem c8_validator_fail_fast_witness :
    validatorStep (.lineTo ⟨1, 1⟩) ⟨false⟩ = .error msgEdgeIdle ∧
    runValidator [.begin ⟨0, 0⟩, .lineTo ⟨1, 1⟩, .endOp true] ⟨false⟩ =
      .ok ⟨false⟩ :=
  ⟨(c8_validator_fail_fast ⟨1, 1⟩ ⟨0, 0⟩ ⟨0, 0⟩).1.2.1,
    ((c8_validator_fail_fast ⟨1, 1⟩ ⟨0, 0⟩ ⟨0, 0⟩).2.2.2.2
      [.begin ⟨0, 0⟩, .lineTo ⟨1, 1⟩, .endOp true] (by decide)).1⟩

/-! ### Path builder state (`path/builder.rs`) and round-rect construction -/

/-- `path::PathVerb`: the path-model verb tags (the `path` module's `mod.rs`
is not in the snapshot; the variants are exactly those constructed and
pattern-matched by `path/builder.rs`). -/
inductive PathVerb
  | begin
  | lineTo
  | quadraticTo
  | cubicTo
  | endV
  | close
deriving DecidableEq, Repr

/-- `path::PathBuilder` data: pushed points, pushed verbs, and the first
point of the current subpath.  Methods model a release build, where the
debug validator calls compile to no-ops (the validator itself is verified
separately above). -/
structure PathBuilder where
  points : List Point
  verbs : List PathVerb
  first : Point
deriving DecidableEq, Repr

/-- `PathBuilder::default()`. -/
def PathBuilder.empty : PathBuilder := ⟨[], [], ⟨0, 0⟩⟩

/-- `PathBuilder::begin`. -/
def PathBuilder.beginAt (b : PathBuilder) (p0 : Point) : PathBuilder :=
  ⟨b.points ++ [p0], b.verbs ++ [PathVerb.begin], p0⟩

/-- `PathBuilder::line_to`. -/
def PathBuilder.lineTo (b : PathBuilder) (p : Point) : PathBuilder :=
  { b with points := b.points ++ [p], verbs := b.verbs ++ [PathVerb.lineTo] }

/-- `PathBuilder::quadratic_to`. -/
def PathBuilder.quadraticTo (b : PathBuilder) (ctrl p : Point) : PathBuilder :=
  { b with points := b.points ++ [ctrl, p],
           verbs := b.verbs ++ [PathVerb.quadraticTo] }

/-- `PathBuilder::cubic_to`. -/
def PathBuilder.cubicTo (b : PathBuilder) (ctrl1 ctrl2 p : Point) : PathBuilder :=
  { b with points := b.points ++ [ctrl1, ctrl2, p],
           verbs := b.verbs ++ [PathVerb.cubicTo] }

/-- `PathBuilder::end`: optionally appends the subpath's first point, pushes
`Close` or `End`, and returns the `Contour` handle (the point count after the
append). -/
def PathBuilder.endB (b : PathBuilder) (close : Bool) : PathBuilder × ℕ :=
  let pts := if close then b.points ++ [b.first] else b.points
  ({ b with points := pts,
            verbs := b.verbs ++ [if close then PathVerb.close else PathVerb.endV] },
    pts.length)

/-- Modelled from the spec: `ara_math::Rect<f32>` is not under src/; per the
spec's data model it is an axis-aligned rectangle, given here in `xywh` form
with `min() = (x, y)`, `max() = (x + width, y + height)`, and
`size = (width, height)`. -/
structure Rect where
  x : ℚ
  y : ℚ
  width : ℚ
  height : ℚ
deriving DecidableEq, Repr

/-- Modelled from the spec: `ara_math::Corners<f32>` is not under src/; one
radius per rectangle corner. -/
structure Corners where
  topLeft : ℚ
  topRight : ℚ
  bottomLeft : ℚ
  bottomRight : ℚ
deriving DecidableEq, Repr

/-- The Bézier circle-approximation constant of `add_rounded_rectangle` and
`add_circle` (`const CONSTANT_FACTOR: f32 = 0.55191505`). -/
def CONSTANT_FACTOR : ℚ := 0.55191505

/-- The per-corner radius clamping at the start of `add_rounded_rectangle`
(`path/builder.rs`): each radius is clamped (after `abs`) to
`min(width, height)`, then each pair of radii sharing a rectangle side is
shrunk by half the excess when the pair's sum exceeds that side's length.
Returns the clamped `(tl, tr, br, bl)`. -/
def roundRectRadii (rect : Rect) (corners : Corners) : ℚ × ℚ × ℚ × ℚ :=
  let w := rect.width
  let h := rect.height
  let minWh := min w h
  let tl0 := min |corners.topLeft| minWh
  let tr0 := min |corners.topRight| minWh
  let bl0 := min |corners.bottomLeft| minWh
  let br0 := min |corners.bottomRight| minWh
  let tltr := if tl0 + tr0 > w then
      (tl0 - (tl0 + tr0 - w) * (1 / 2), tr0 - (tl0 + tr0 - w) * (1 / 2))
    else (tl0, tr0)
  let blbr := if bl0 + br0 > w then
      (bl0 - (bl0 + br0 - w) * (1 / 2), br0 - (bl0 + br0 - w) * (1 / 2))
    else (bl0, br0)
  let trbr := if tltr.2 + blbr.2 > h then
      (tltr.2 - (tltr.2 + blbr.2 - h) * (1 / 2), blbr.2 - (tltr.2 + blbr.2 - h) * (1 / 2))
    else (tltr.2, blbr.2)
  let tlbl := if tltr.1 + blbr.1 > h then
      (tltr.1 - (tltr.1 + blbr.1 - h) * (1 / 2), blbr.1 - (tltr.1 + blbr.1 - h) * (1 / 2))
    else (tltr.1, blbr.1)
  (tlbl.1, trbr.1, trbr.2, tlbl.2)

/-- `add_rounded_rectangle` (`path/builder.rs`), with the corner-arc guards
exactly as written in the source: both the top-left and the top-right arcs
are gated on `if tl > 0.0`, while the bottom-right and bottom-left arcs are
gated on their own radii. -/
def addRoundedRectangle (builder : PathBuilder) (rect : Rect)
    (corners : Corners) : PathBuilder × ℕ :=
  let xMin := rect.x
  let yMin := rect.y
  let xMax := rect.x + rect.width
  let yMax := rect.y + rect.height
  let r4 := roundRectRadii rect corners
  let tl := r4.1
  let tr := r4.2.1
  let br := r4.2.2.1
  let bl := r4.2.2.2
  let tlD := tl * CONSTANT_FACTOR
  let trD := tr * CONSTANT_FACTOR
  let brD := br * CONSTANT_FACTOR
  let blD := bl * CONSTANT_FACTOR
  let tlCorner : Point := ⟨xMin, yMin⟩
  let trCorner : Point := ⟨xMax, yMin⟩
  let brCorner : Point := ⟨xMax, yMax⟩
  let blCorner : Point := ⟨xMin, yMax⟩
  let p0 : Point := ⟨xMin, yMin + tl⟩
  let p1 := tlCorner + (⟨0, tl - tlD⟩ : Point)
  let p2 := tlCorner + (⟨tl - tlD, 0⟩ : Point)
  let p3 := tlCorner + (⟨tl, 0⟩ : Point)
  let p4 : Point := ⟨xMax - tr, yMin⟩
  let p5 := trCorner + (⟨-tr + trD, 0⟩ : Point)
  let p6 := trCorner + (⟨0, tr - trD⟩ : Point)
  let p7 := trCorner + (⟨0, tr⟩ : Point)
  let p8 : Point := ⟨xMax, yMax - br⟩
  let p9 := brCorner + (⟨0, -br + brD⟩ : Point)
  let p10 := brCorner + (⟨-br + brD, 0⟩ : Point)
  let p11 := brCorner + (⟨-br, 0⟩ : Point)
  let p12 : Point := ⟨xMin + bl, yMax⟩
  let p13 := blCorner + (⟨bl - blD, 0⟩ : Point)
  let p14 := blCorner + (⟨0, -bl + blD⟩ : Point)
  let p15 := blCorner + (⟨0, -bl⟩ : Point)
  let b0 := builder.beginAt p0
  let b1 := if tl > 0 then b0.cubicTo p1 p2 p3 else b0
  let b2 := b1.lineTo p4
  let b3 := if tl > 0 then b2.cubicTo p5 p6 p7 else b2
  let b4 := b3.lineTo p8
  let b5 := if br > 0 then b4.cubicTo p9 p10 p11 else b4
  let b6 := b5.lineTo p12
  let b7 := if bl > 0 then b6.cubicTo p13 p14 p15 else b6
  b7.endB true

/-- C4 (code bug): with `rect = xywh(0, 0, 10, 10)` and corner radii
`(tl, tr, bl, br) = (0, 3, 0, 0)` the clamping leaves the top-right radius at
`3 > 0`, yet `add_rounded_rectangle` emits no cubic corner arc at all — in the
source the top-right arc is gated on `if tl > 0.0` instead of `tr > 0.0` — so
the emitted verbs are `Begin, LineTo, LineTo, LineTo, Close` and the
positive-radius top-right corner is cut by a straight diagonal.  This
contradicts the claim (and §4.1) that a cubic arc is emitted for every corner
whose clamped radius is positive. -/
theorem c4_round_rect_missing_corner_arc :
    (roundRectRadii ⟨0, 0, 10, 10⟩ ⟨0, 3, 0, 0⟩).2.1 = 3 ∧
    (addRoundedRectangle PathBuilder.empty ⟨0, 0, 10, 10⟩ ⟨0, 3, 0, 0⟩).1.verbs =
      [PathVerb.begin, PathVerb.lineTo, PathVerb.lineTo, PathVerb.lineTo,
        PathVerb.close] ∧
    PathVerb.cubicTo ∉
      (addRoundedRectangle PathBuilder.empty ⟨0, 0, 10, 10⟩ ⟨0, 3, 0, 0⟩).1.verbs := by
  have h : roundRectRadii ⟨0, 0, 10, 10⟩ ⟨0, 3, 0, 0⟩ = (0, 3, 0, 0) := by
    norm_num [roundRectRadii]
  have h2 : (addRoundedRectangle PathBuilder.empty ⟨0, 0, 10, 10⟩
      ⟨0, 3, 0, 0⟩).1.verbs =
      [PathVerb.begin, PathVerb.lineTo, PathVerb.lineTo, PathVerb.lineTo,
        PathVerb.close] := by
    simp only [addRoundedRectangle, h]
    norm_num [PathBuilder.beginAt, PathBuilder.lineTo, PathBuilder.endB,
      PathBuilder.empty]
  exact ⟨by rw [h], h2, by rw [h2]; decide⟩

/-! ### Curve flattening segment counts (`path/geo.rs`) -/

/-- `PathGeometryBuilder::MIN_SEGMENTS`. -/
def MIN_SEGMENTS : ℕ := 4

/-- `PathGeometryBuilder::MAX_SEGMENTS`. -/
def MAX_SEGMENTS : ℕ := 64

/-- `PathGeometryBuilder::TOLERANCE` (7.0; lower = more quality). -/
def TOLERANCE : ℚ := 7

/-- `calc_cubic_segments` (`path/geo.rs`), parametric in `mag`, the vector
magnitude: `Vec2::magnitude` lives in the `ara_math` crate, which is not
under src/ (an `f32` square root has no exact ℚ counterpart), so every
statement is quantified over it.  `.ceil() as u32` saturates negative values
to `0`, hence `Int.toNat`; `.clamp(MIN, MAX)` is `min (max · MIN) MAX`. -/
def calcCubicSegments (mag : Point → ℚ) (f ctrl1 ctrl2 t : Point) : ℕ :=
  let chord := mag (t - f)
  let controlPolygon := mag (ctrl1 - f) + mag (ctrl2 - ctrl1) + mag (t - ctrl2)
  let flatness := controlPolygon / chord
  let segments := Int.toNat ⌈flatness * chord / TOLERANCE⌉
  min (max segments MIN_SEGMENTS) MAX_SEGMENTS

/-- `calc_quadratic_segments` (`path/geo.rs`). -/
def calcQuadraticSegments (mag : Point → ℚ) (f ctrl t : Point) : ℕ :=
  let chord := mag (t - f)
  let controlPolygon := mag (ctrl - f) + mag (t - ctrl)
  let flatness := controlPolygon / chord
  let segments := Int.toNat ⌈flatness * chord / TOLERANCE⌉
  min (max segments MIN_SEGMENTS) MAX_SEGMENTS

/-- The segment-count selection in `build_geometry_till_end`: a caller-set
non-zero `num_segments` wins, zero means automatic. -/
def segmentsForCubic (mag : Point → ℚ) (numSegments : ℕ)
    (f c1 c2 t : Point) : ℕ :=
  if numSegments = 0 then calcCubicSegments mag f c1 c2 t else numSegments

/-- The quadratic counterpart of `segmentsForCubic`. -/
def segmentsForQuadratic (mag : Point → ℚ) (numSegments : ℕ)
    (f c t : Point) : ℕ :=
  if numSegments = 0 then calcQuadraticSegments mag f c t else numSegments

/-- The spec's automatic-count formula, as §4.2 states it:
`clamp(ceil(flatness * chord / tolerance), MIN=4, MAX=64)`. -/
def specClampSegments (flatness chord : ℚ) : ℕ :=
  Int.toNat (max 4 (min 64 ⌈flatness * chord / 7⌉))

/-- The spec's flatness, `control_polygon_length / chord_length`, for a cubic. -/
def specCubicFlatness (mag : Point → ℚ) (f c1 c2 t : Point) : ℚ :=
  (mag (c1 - f) + mag (c2 - c1) + mag (t - c2)) / mag (t - f)

/-- The spec's flatness for a quadratic. -/
def specQuadraticFlatness (mag : Point → ℚ) (f c t : Point) : ℚ :=
  (mag (c - f) + mag (t - c)) / mag (t - f)

theorem clamp_toNat_eq (k : ℤ) :
    min (max (Int.toNat k) MIN_SEGMENTS) MAX_SEGMENTS =
      Int.toNat (max 4 (min 64 k)) := by
  simp only [MIN_SEGMENTS, MAX_SEGMENTS]
  omega

/-- C5: In automatic mode (`num_segments = 0`) the number of uniform
parametric segments for a cubic or quadratic equals
`clamp(ceil(flatness * chord / tolerance), 4, 64)` with
`flatness = control_polygon_length / chord_length`, chord the from–to
distance and tolerance the fixed constant 7; a caller-supplied non-zero
fixed count is used verbatim instead. -/
theorem c5_segment_count_formula (mag : Point → ℚ) (f c1 c2 t : Point)
    (n : ℕ) :
    (n = 0 →
      segmentsForCubic mag n f c1 c2 t =
        specClampSegments (specCubicFlatness mag f c1 c2 t) (mag (t - f)) ∧
      segmentsForQuadratic mag n f c1 t =
        specClampSegments (specQuadraticFlatness mag f c1 t) (mag (t - f))) ∧
    (n ≠ 0 →
      segmentsForCubic mag n f c1 c2 t = n ∧
      segmentsForQuadratic mag n f c1 t = n) := by
  constructor
  · intro hn
    subst hn
    constructor
    · simp only [segmentsForCubic, if_pos rfl, calcCubicSegments,
        specClampSegments, specCubicFlatness, TOLERANCE]
      exact clamp_toNat_eq _
    · simp only [segmentsForQuadratic, if_pos rfl, calcQuadraticSegments,
        specClampSegments, specQuadraticFlatness, TOLERANCE]
      exact clamp_toNat_eq _
  · intro hn
    exact ⟨by simp [segmentsForCubic, hn], by simp [segmentsForQuadratic, hn]⟩

/-- C5 witness: the automatic formula at the cubic from the repository's own
`path_geometry_cubic_bezier` test (with a concrete magnitude function), and
the fixed-count override at `num_segments = 16`. -/
theorem c5_segment_count_formula_witness :
    segmentsForCubic (fun p => |p.x| + |p.y|) 0 ⟨0, 0⟩ ⟨0, 4⟩ ⟨6, 0⟩ ⟨6, 8⟩ =
      specClampSegments
        (specCubicFlatness (fun p => |p.x| + |p.y|) ⟨0, 0⟩ ⟨0, 4⟩ ⟨6, 0⟩ ⟨6, 8⟩)
        ((fun p : Point => |p.x| + |p.y|) ((⟨6, 8⟩ : Point) - ⟨0, 0⟩)) ∧
    segmentsForQuadratic (fun p => |p.x| + |p.y|) 16 ⟨0, 0⟩ ⟨5, 5⟩ ⟨10, 0⟩ = 16 :=
  ⟨((c5_segment_count_formula (fun p => |p.x| + |p.y|) ⟨0, 0⟩ ⟨0, 4⟩ ⟨6, 0⟩
      ⟨6, 8⟩ 0).1 rfl).1,
    ((c5_segment_count_formula (fun p => |p.x| + |p.y|) ⟨0, 0⟩ ⟨5, 5⟩ ⟨6, 0⟩
      ⟨10, 0⟩ 16).2 (by decide)).2⟩

/-! ### Geometry flattener (`path/geo.rs`) -/

/-- `path::PathEvent`, as consumed by `path/geo.rs` (the `path` module root
that declares it is not in the snapshot; the fields are exactly those the
flattener pattern-matches). -/
inductive PathEvent
  | begin (start : Point)
  | line (f p : Point)
  | quadratic (f ctrl p : Point)
  | cubic (f ctrl1 ctrl2 p : Point)
  | endE (contour : ℕ) (last : Point) (close : Bool) (first : Point)
deriving DecidableEq, Repr

/-- The flattener's near-duplicate epsilon (`const EPSILON: f32 = 1e-6`). -/
def EPSILON : ℚ := 1 / 1000000

/-- The epsilon comparison used by `push_point` and by the `close` branch of
`build_geometry_till_end`: the two points differ by more than `EPSILON` on at
least one axis. -/
def farApart (p last : Point) : Bool :=
  (|p.x - last.x| > EPSILON) || (|p.y - last.y| > EPSILON)

/-- `PathGeometryBuilder::push_point`: appends only when the point differs
from the output's last point by more than `EPSILON` on some axis. -/
def pushPoint (output : List Point) (point : Point) : List Point :=
  match output.getLast? with
  | some last => if farApart point last then output ++ [point] else output
  | none => output ++ [point]

/-- The curve sampling loop of `build_geometry_till_end`:
`for i in 1..=num_segments { push_point(bezier.sample(t_step * i)) }` with
`t_step = 1 / num_segments` (uniform parametric steps). -/
def pushCurvePoints (sample : ℚ → Point) (numSegments : ℕ)
    (output : List Point) : List Point :=
  (List.range numSegments).foldl
    (fun out i => pushPoint out (sample ((1 / (numSegments : ℚ)) * ((i + 1 : ℕ) : ℚ))))
    output

/-- Result of `build_geometry_till_end`: a finished contour handle, the
`Contour::INVALID` case (event stream exhausted before `End`), or the
`unreachable!("invalid geometry")` panic on a nested `Begin`. -/
inductive ContourResult
  | valid (contour : ℕ)
  | invalid
  | malformed
deriving DecidableEq, Repr

/-- The event loop of `build_geometry_till_end` (`path/geo.rs`).  The cubic
and quadratic samplers are parameters: `CubicBezier::sample` /
`QuadraticBezier::sample` live in `paint::geometry`, which is not in the
snapshot (and evaluate `f32` polynomials); `mag` is the magnitude parameter
of the segment-count computation.  Returns the grown output, the unconsumed
events and the contour result. -/
def buildLoop (sampleCubic : Point → Point → Point → Point → ℚ → Point)
    (sampleQuadratic : Point → Point → Point → ℚ → Point)
    (mag : Point → ℚ) (numSegments : ℕ) :
    List PathEvent → List Point → List Point × List PathEvent × ContourResult
  | [], output => (output, [], ContourResult.invalid)
  | PathEvent.begin q :: rest, output =>
      (output, PathEvent.begin q :: rest, ContourResult.malformed)
  | PathEvent.cubic f c1 c2 t :: rest, output =>
      let n := segmentsForCubic mag numSegments f c1 c2 t
      buildLoop sampleCubic sampleQuadratic mag numSegments rest
        (pushCurvePoints (sampleCubic f c1 c2 t) n output)
  | PathEvent.quadratic f c t :: rest, output =>
      let n := segmentsForQuadratic mag numSegments f c t
      buildLoop sampleCubic sampleQuadratic mag numSegments rest
        (pushCurvePoints (sampleQuadratic f c t) n output)
  | PathEvent.line _ t :: rest, output =>
      buildLoop sampleCubic sampleQuadratic mag numSegments rest
        (pushPoint output t)
  | PathEvent.endE contour _ close first :: rest, output =>
      if close then
        match output.getLast? with
        | some last =>
            if farApart first last then
              (pushPoint output first, rest, ContourResult.valid contour)
            else (output, rest, ContourResult.valid contour)
        | none => (output, rest, ContourResult.valid contour)
      else (output, rest, ContourResult.valid contour)

/-- `build_geometry_till_end`: pushes the contour's start point, then runs
the event loop. -/
def buildGeometryTillEnd (sampleCubic : Point → Point → Point → Point → ℚ → Point)
    (sampleQuadratic : Point → Point → Point → ℚ → Point)
    (mag : Point → ℚ) (numSegments : ℕ) (start : Point)
    (events : List PathEvent) (output : List Point) :
    List Point × List PathEvent × ContourResult :=
  buildLoop sampleCubic sampleQuadratic mag numSegments events
    (pushPoint output start)

/-- The `Iterator for PathGeometryBuilder` driver: each `next()` consumes a
`Begin`, flattens up to the matching `End` and records `(contour, range)`;
a leading non-`Begin` event is the `unreachable!("invalid path path
operation")` panic (third component `false`), and a nested `Begin` panic
inside a contour also aborts.  The fuel only bounds the number of contours;
`flattenPath` supplies `events.length + 1`, which always suffices because
every produced contour consumes at least one event. -/
def flattenLoop (sampleCubic : Point → Point → Point → Point → ℚ → Point)
    (sampleQuadratic : Point → Point → Point → ℚ → Point)
    (mag : Point → ℚ) (numSegments : ℕ) :
    ℕ → List PathEvent → List Point → ℕ →
    List Point × List (ContourResult × ℕ × ℕ) × Bool
  | 0, _, output, _ => (output, [], false)
  | _ + 1, [], output, _ => (output, [], true)
  | fuel + 1, PathEvent.begin p :: rest, output, offset =>
      let r := buildGeometryTillEnd sampleCubic sampleQuadratic mag numSegments
        p rest output
      if r.2.2 = ContourResult.malformed then (r.1, [], false)
      else
        let k := flattenLoop sampleCubic sampleQuadratic mag numSegments fuel
          r.2.1 r.1 r.1.length
        (k.1, (r.2.2, offset, r.1.length) :: k.2.1, k.2.2)
  | _ + 1, _ :: _, output, _ => (output, [], false)

/-- `PathGeometryBuilder` run to exhaustion over an event list (fresh
builder: `offset = output.len()`). -/
def flattenPath (sampleCubic : Point → Point → Point → Point → ℚ → Point)
    (sampleQuadratic : Point → Point → Point → ℚ → Point)
    (mag : Point → ℚ) (numSegments : ℕ) (events : List PathEvent)
    (output : List Point) : List Point × List (ContourResult × ℕ × ℕ) × Bool :=
  flattenLoop sampleCubic sampleQuadratic mag numSegments (events.length + 1)
    events output output.length

/-- Every two consecutive emitted points differ by more than `EPSILON` on at
least one axis. -/
def SeparatedPoints (out : List Point) : Prop :=
  List.Chain' (fun a b => farApart b a = true) out

theorem pushPoint_eq_append (out : List Point) (p last : Point)
    (hl : out.getLast? = some last) (hfar : farApart p last = true) :
    pushPoint out p = out ++ [p] := by
  unfold pushPoint
  rw [hl]
  simp [hfar]

theorem pushPoint_eq_self (out : List Point) (p last : Point)
    (hl : out.getLast? = some last) (hfar : farApart p last = false) :
    pushPoint out p = out := by
  unfold pushPoint
  rw [hl]
  simp [hfar]

theorem separated_pushPoint (out : List Point) (p : Point)
    (h : SeparatedPoints out) : SeparatedPoints (pushPoint out p) := by
  cases hl : out.getLast? with
  | none =>
    have hnil : out = [] := by simpa using hl
    subst hnil
    simp [pushPoint, SeparatedPoints]
  | some last =>
    cases hfar : farApart p last with
    | true =>
      rw [pushPoint_eq_append out p last hl hfar]
      refine List.chain'_append.mpr ⟨h, List.chain'_singleton _, ?_⟩
      intro x hx y hy
      simp only [List.head?_cons, Option.mem_def, Option.some.injEq] at hy
      rw [hl] at hx
      simp only [Option.mem_def, Option.some.injEq] at hx
      subst hx; subst hy
      exact hfar
    | false =>
      rw [pushPoint_eq_self out p last hl hfar]
      exact h

theorem separated_foldl_pushPoint (g : ℕ → Point) :
    ∀ (l : List ℕ) (out : List Point), SeparatedPoints out →
      SeparatedPoints (l.foldl (fun o i => pushPoint o (g i)) out)
  | [], _, h => h
  | _ :: is, _, h =>
    separated_foldl_pushPoint g is _ (separated_pushPoint _ _ h)

theorem separated_pushCurvePoints (sample : ℚ → Point) (n : ℕ)
    (out : List Point) (h : SeparatedPoints out) :
    SeparatedPoints (pushCurvePoints sample n out) := by
  unfold pushCurvePoints
  exact separated_foldl_pushPoint _ _ _ h

theorem buildLoop_endE_close
    (sampleCubic : Point → Point → Point → Point → ℚ → Point)
    (sampleQuadratic : Point → Point → Point → ℚ → Point)
    (mag : Point → ℚ) (numSegments contour : ℕ) (lastp first : Point)
    (rest : List PathEvent) (out : List Point) (last : Point)
    (hl : out.getLast? = some last) :
    buildLoop sampleCubic sampleQuadratic mag numSegments
        (PathEvent.endE contour lastp true first :: rest) out =
      if farApart first last then
        (pushPoint out first, rest, ContourResult.valid contour)
      else (out, rest, ContourResult.valid contour) := by
  simp only [buildLoop, hl]
  simp

theorem buildLoop_endE_close_none
    (sampleCubic : Point → Point → Point → Point → ℚ → Point)
    (sampleQuadratic : Point → Point → Point → ℚ → Point)
    (mag : Point → ℚ) (numSegments contour : ℕ) (lastp first : Point)
    (rest : List PathEvent) (out : List Point)
    (hl : out.getLast? = none) :
    buildLoop sampleCubic sampleQuadratic mag numSegments
        (PathEvent.endE contour lastp true first :: rest) out =
      (out, rest, ContourResult.valid contour) := by
  simp only [buildLoop, hl]
  simp

theorem separated_buildLoop
    (sampleCubic : Point → Point → Point → Point → ℚ → Point)
    (sampleQuadratic : Point → Point → Point → ℚ → Point)
    (mag : Point → ℚ) (numSegments : ℕ) :
    ∀ (events : List PathEvent) (out : List Point), SeparatedPoints out →
      SeparatedPoints
        (buildLoop sampleCubic sampleQuadratic mag numSegments events out).1 := by
  intro events
  induction events with
  | nil => intro out h; simpa [buildLoop] using h
  | cons e rest ih =>
    intro out h
    cases e with
    | begin p => simpa [buildLoop] using h
    | line f p =>
      simpa [buildLoop] using ih _ (separated_pushPoint _ _ h)
    | quadratic f c p =>
      simpa [buildLoop] using ih _ (separated_pushCurvePoints _ _ _ h)
    | cubic f c1 c2 p =>
      simpa [buildLoop] using ih _ (separated_pushCurvePoints _ _ _ h)
    | endE contour lastp close first =>
      cases close with
      | false => simpa [buildLoop] using h
      | true =>
        cases hgl : out.getLast? with
        | none =>
          rw [buildLoop_endE_close_none sampleCubic sampleQuadratic mag
            numSegments contour lastp first rest out hgl]
          exact h
        | some l =>
          rw [buildLoop_endE_close sampleCubic sampleQuadratic mag numSegments
            contour lastp first rest out l hgl]
          cases hf : farApart first l with
          | true => simpa using separated_pushPoint _ _ h
          | false => simpa using h

theorem separated_flattenLoop
    (sampleCubic : Point → Point → Point → Point → ℚ → Point)
    (sampleQuadratic : Point → Point → Point → ℚ → Point)
    (mag : Point → ℚ) (numSegments : ℕ) :
    ∀ (fuel : ℕ) (events : List PathEvent) (out : List Point) (offset : ℕ),
      SeparatedPoints out →
      SeparatedPoints
        (flattenLoop sampleCubic sampleQuadratic mag numSegments fuel events
          out offset).1 := by
  intro fuel
  induction fuel with
  | zero => intro ev out off h; simpa [flattenLoop] using h
  | succ fuel ih =>
    intro ev out off h
    cases ev with
    | nil => simpa [flattenLoop] using h
    | cons e rest =>
      cases e with
      | begin p =>
        have hr : SeparatedPoints
            (buildGeometryTillEnd sampleCubic sampleQuadratic mag numSegments
              p rest out).1 :=
          separated_buildLoop _ _ _ _ _ _ (separated_pushPoint _ _ h)
        simp only [flattenLoop]
        split
        · exact hr
        · exact ih _ _ _ hr
      | line f p => simpa [flattenLoop] using h
      | quadratic f c p => simpa [flattenLoop] using h
      | cubic f c1 c2 p => simpa [flattenLoop] using h
      | endE c l cl fi => simpa [flattenLoop] using h

/-- C6: (a) on `close`, the contour's starting point is appended exactly when
it differs from the last emitted point by more than `1e-6` on some axis;
(b) consequently the whole flattened output is a chain of points that
pairwise differ by more than `1e-6` on at least one axis, so (c) its last two
emitted points differ by more than `1e-6` on at least one axis (vacuous for a
single-point output). -/
theorem c6_no_zero_length_closing_edge
    (sampleCubic : Point → Point → Point → Point → ℚ → Point)
    (sampleQuadratic : Point → Point → Point → ℚ → Point)
    (mag : Point → ℚ) (numSegments : ℕ) (events : List PathEvent)
    (output0 : List Point) (h0 : SeparatedPoints output0)
    (out : List Point) (first lastp : Point) (contour : ℕ)
    (rest : List PathEvent) (hlast : out.getLast? = some lastp) :
    (buildLoop sampleCubic sampleQuadratic mag numSegments
        (PathEvent.endE contour lastp true first :: rest) out =
      if farApart first lastp then
        (out ++ [first], rest, ContourResult.valid contour)
      else (out, rest, ContourResult.valid contour)) ∧
    SeparatedPoints
      (flattenPath sampleCubic sampleQuadratic mag numSegments events output0).1 ∧
    (∀ (pre : List Point) (a b : Point),
      (flattenPath sampleCubic sampleQuadratic mag numSegments events
        output0).1 = pre ++ [a, b] → farApart b a = true) := by
  refine ⟨?_, ?_, ?_⟩
  · rw [buildLoop_endE_close sampleCubic sampleQuadratic mag numSegments
      contour lastp first rest out lastp hlast]
    cases hf : farApart first lastp with
    | true => simp [pushPoint_eq_append out first lastp hlast hf]
    | false => simp
  · exact separated_flattenLoop _ _ _ _ _ _ _ _ h0
  · intro pre a b hout
    have hsep := separated_flattenLoop sampleCubic sampleQuadratic mag
      numSegments (events.length + 1) events output0 output0.length h0
    rw [show flattenLoop sampleCubic sampleQuadratic mag numSegments
        (events.length + 1) events output0 output0.length =
        flattenPath sampleCubic sampleQuadratic mag numSegments events output0
        from rfl, hout] at hsep
    unfold SeparatedPoints at hsep
    have := (List.chain'_append.mp hsep).2.1
    simpa using this

/-- C6 witness: the theorem applied to a concrete closed triangle contour
(constant samplers, empty initial output, a one-point `out` for the close
conjunct). -/
theorem c6_no_zero_length_closing_edge_witness :
    (buildLoop (fun _ _ _ _ _ => ⟨0, 0⟩) (fun _ _ _ _ => ⟨0, 0⟩) (fun _ => 0) 0
        [PathEvent.endE 3 ⟨5, 5⟩ true ⟨0, 0⟩] [⟨5, 5⟩] =
      if farApart ⟨0, 0⟩ ⟨5, 5⟩ then
        ([⟨5, 5⟩, ⟨0, 0⟩], [], ContourResult.valid 3)
      else ([⟨5, 5⟩], [], ContourResult.valid 3)) ∧
    SeparatedPoints
      (flattenPath (fun _ _ _ _ _ => ⟨0, 0⟩) (fun _ _ _ _ => ⟨0, 0⟩)
        (fun _ => 0) 0
        [PathEvent.begin ⟨0, 0⟩, PathEvent.line ⟨0, 0⟩ ⟨2, 3⟩,
          PathEvent.endE 3 ⟨2, 3⟩ true ⟨0, 0⟩] []).1 := by
  have h := c6_no_zero_length_closing_edge (fun _ _ _ _ _ => ⟨0, 0⟩)
    (fun _ _ _ _ => ⟨0, 0⟩) (fun _ => 0) 0
    [PathEvent.begin ⟨0, 0⟩, PathEvent.line ⟨0, 0⟩ ⟨2, 3⟩,
      PathEvent.endE 3 ⟨2, 3⟩ true ⟨0, 0⟩] [] List.chain'_nil
    [⟨5, 5⟩] ⟨0, 0⟩ ⟨5, 5⟩ 3 [] rfl
  exact ⟨h.1, h.2.1⟩

/-! ### Instruction batching (§4.6, `GraphicsInstructionBatcher`) and the
canvas prepare pass (`canvas.rs`) -/

/-- Modelled from the spec: `paint::graphics_instruction::GraphicsInstruction`
is not under src/ (only its caller `canvas.rs` is).  For batching, an
instruction carries what §4.6 computes the batch key from — a texture
reference (resolved through the atlas) and a clip rectangle — plus the brush
consulted by the nothing-to-draw check. -/
structure Instruction where
  textureId : ℕ
  clip : Rect
  brush : Brush
deriving DecidableEq, Repr

/-- Modelled from the spec: the batch key of §4.6 — the concrete render
texture after atlas-key → atlas-tile-texture resolution together with the
clip rectangle. -/
def batchKey (resolve : ℕ → ℕ) (i : Instruction) : ℕ × Rect :=
  (resolve i.textureId, i.clip)

/-- Modelled from the spec: `GraphicsInstructionBatcher` partitions an
ordered instruction sequence into contiguous batches such that all
instructions in a batch share one batch key, preserving order; runs are
maximal (a new batch starts only on a key change). -/
def batchRuns (resolve : ℕ → ℕ) : List Instruction → List (List Instruction)
  | [] => []
  | i :: rest =>
    match batchRuns resolve rest with
    | [] => [[i]]
    | [] :: gs => [i] :: [] :: gs
    | (j :: js) :: gs =>
      if batchKey resolve i = batchKey resolve j then (i :: j :: js) :: gs
      else [i] :: (j :: js) :: gs

/-- Claim-side definition: the number of maximal runs of consecutive
instructions with equal batch key. -/
def countRuns (resolve : ℕ → ℕ) : List Instruction → ℕ
  | [] => 0
  | [_] => 1
  | i :: j :: rest =>
    (if batchKey resolve i = batchKey resolve j then 0 else 1) +
      countRuns resolve (j :: rest)

theorem batchRuns_cons_head (resolve : ℕ → ℕ) (j : Instruction)
    (r : List Instruction) :
    ∃ js gs, batchRuns resolve (j :: r) = (j :: js) :: gs := by
  cases h : batchRuns resolve r with
  | nil => exact ⟨[], [], by simp [batchRuns, h]⟩
  | cons g gs =>
    cases g with
    | nil => exact ⟨[], [] :: gs, by simp [batchRuns, h]⟩
    | cons k ks =>
      by_cases hk : batchKey resolve j = batchKey resolve k
      · exact ⟨k :: ks, gs, by simp [batchRuns, h, hk]⟩
      · exact ⟨[], (k :: ks) :: gs, by simp [batchRuns, h, hk]⟩

theorem flatten_batchRuns (resolve : ℕ → ℕ) :
    ∀ l : List Instruction, (batchRuns resolve l).flatten = l := by
  intro l
  induction l with
  | nil => rfl
  | cons i rest ih =>
    cases h : batchRuns resolve rest with
    | nil =>
      rw [h] at ih
      simp only [batchRuns, h]
      simpa using ih.symm
    | cons g gs =>
      cases g with
      | nil =>
        rw [h] at ih
        simp only [batchRuns, h]
        simpa using ih
      | cons k ks =>
        rw [h] at ih
        by_cases hk : batchKey resolve i = batchKey resolve k
        · simp only [batchRuns, h, hk, if_true]
          simpa using ih
        · simp only [batchRuns, h, hk, if_false]
          simpa using ih

theorem length_batchRuns (resolve : ℕ → ℕ) :
    ∀ l : List Instruction, (batchRuns resolve l).length = countRuns resolve l
  | [] => rfl
  | [_] => rfl
  | i :: j :: rest => by
    obtain ⟨js, gs, h⟩ := batchRuns_cons_head resolve j rest
    have ih := length_batchRuns resolve (j :: rest)
    rw [h] at ih
    have h2 : batchRuns resolve (i :: j :: rest) =
        if batchKey resolve i = batchKey resolve j then (i :: j :: js) :: gs
        else [i] :: (j :: js) :: gs := by
      rw [batchRuns, h]
    by_cases hk : batchKey resolve i = batchKey resolve j
    · rw [h2, if_pos hk]
      simp only [countRuns, hk, if_true, List.length_cons]
      simp only [List.length_cons] at ih
      omega
    · rw [h2, if_neg hk]
      simp only [countRuns, hk, if_false, List.length_cons]
      simp only [List.length_cons] at ih
      omega

/-- A shared clip rectangle for the concrete batching example. -/
def exClip : Rect := ⟨0, 0, 100, 100⟩

/-- Concrete instruction on texture `A` (id 0). -/
def instrA : Instruction := ⟨0, exClip, Brush.filled Color.WHITE⟩

/-- Concrete instruction on texture `B` (id 1). -/
def instrB : Instruction := ⟨1, exClip, Brush.filled Color.WHITE⟩

/-- C7: the batcher partitions an ordered instruction sequence into exactly
as many batches as there are maximal runs of consecutive instructions with
the same resolved texture and clip rectangle, preserving order
(concatenating the batches gives back the sequence); in particular textures
`[A, A, B, A]` under one shared clip yield exactly the 3 batches
`{A,A}, {B}, {A}`. -/
theorem c7_batcher_maximal_runs (resolve : ℕ → ℕ) (l : List Instruction) :
    (batchRuns resolve l).flatten = l ∧
    (batchRuns resolve l).length = countRuns resolve l ∧
    batchRuns id [instrA, instrA, instrB, instrA] =
      [[instrA, instrA], [instrB], [instrA]] ∧
    (batchRuns id [instrA, instrA, instrB, instrA]).length = 3 :=
  ⟨flatten_batchRuns resolve l, length_batchRuns resolve l, by decide, by decide⟩

/-- Modelled from the spec: `GraphicsInstruction::nothing_to_draw`
(`paint::graphics_instruction`, not under src/): the instruction's
primitive/brush combination draws nothing — fully transparent fill and
stroke (`Brush::nothing_to_draw`, embedded above from `paint/brush.rs`). -/
def Instruction.nothingToDraw (i : Instruction) : Bool := i.brush.nothingToDraw

/-- `Canvas::build_renderable` (`canvas.rs`), with per-instruction geometry
generation abstracted into `geom` (the draw-list tessellation): processing a
batch returns `none` as soon as any instruction reports `nothing_to_draw`
(the source's early `return None`), otherwise the concatenated geometry,
or `none` when that mesh is empty. -/
def buildRenderable {α : Type} (geom : Instruction → List α)
    (batch : List Instruction) : Option (List α) :=
  if batch.any (fun i => i.nothingToDraw) then none
  else if ((batch.map geom).flatten).isEmpty then none
  else some ((batch.map geom).flatten)

/-- The prepare pass of `Canvas::prepare_for_render` for one stage: the
batcher drops nothing-to-draw instructions before batching (modelled from
§4.6), partitions the rest into maximal same-key runs, and builds one
renderable per batch via `build_renderable`. -/
def prepareStage {α : Type} (resolve : ℕ → ℕ) (geom : Instruction → List α)
    (instrs : List Instruction) : List (List α) :=
  (batchRuns resolve (instrs.filter (fun i => !i.nothingToDraw))).filterMap
    (buildRenderable geom)

/-- C3: an instruction whose fill and stroke colors are both fully
transparent is individually dropped: the prepare pass on a sequence
containing it produces exactly the renderables of the same sequence without
it (so it does not affect the geometry produced for the other instructions),
and a batch of only such instructions produces no renderable at all and no
error (the pass has no error outcome). -/
theorem c3_transparent_instruction_dropped {α : Type} (resolve : ℕ → ℕ)
    (geom : Instruction → List α) (xs ys : List Instruction)
    (t : Instruction) (h : t.nothingToDraw = true) :
    prepareStage resolve geom (xs ++ t :: ys) =
      prepareStage resolve geom (xs ++ ys) ∧
    prepareStage resolve geom [t] = [] := by
  constructor
  · unfold prepareStage
    rw [List.filter_append, List.filter_append, List.filter_cons_of_neg]
    simp [h]
  · unfold prepareStage
    rw [List.filter_cons_of_neg]
    · rfl
    · simp [h]

/-- A fully transparent instruction (`Brush::default()` has transparent fill
and stroke). -/
def transparentInstr : Instruction := ⟨2, exClip, Brush.default⟩

/-- C3 witness: the theorem at a concrete mixed sequence, with geometry that
reports each instruction's texture id. -/
theorem c3_transparent_instruction_dropped_witness :
    prepareStage id (fun i => [i.textureId])
        [instrA, transparentInstr, instrB] =
      prepareStage id (fun i => [i.textureId]) [instrA, instrB] ∧
    prepareStage id (fun i => [i.textureId]) [transparentInstr] = [] :=
  c3_transparent_instruction_dropped id (fun i => [i.textureId]) [instrA]
    [instrB] transparentInstr (by decide)

/-! ### Ear-clipping triangulator (`earcut/mod.rs`)

The arena of ring nodes is a `List Node` addressed by plain indices
(the Rust `NodeIndex = NonZeroU32`; slot 0 holds the dummy pushed by
`reset`).  Loops over the circular ring become fuel-bounded recursions,
written condition-first so that a loop exit consumes no fuel; with enough
fuel they agree with the Rust loops.
-/

/-- `earcut::Node<T>`: vertex index `i`, z-order value, coordinates, ring
links, z-order links, steiner flag. -/
structure Node where
  i : ℕ
  z : ℤ
  x : ℚ
  y : ℚ
  prevI : ℕ
  nextI : ℕ
  prevZI : Option ℕ
  nextZI : Option ℕ
  steiner : Bool
deriving DecidableEq, Repr

/-- `Node::new` (links initialised to 1, as in the source). -/
def Node.new (i : ℕ) (x y : ℚ) : Node :=
  ⟨i, 0, x, y, 1, 1, none, none, false⟩

/-- The dummy node that `reset` pushes at arena slot 0.  (The Rust dummy has
infinite coordinates; ℚ has none, but the dummy's fields are never read:
every ring access goes through a nonzero `NodeIndex`.) -/
def dummyNode : Node := Node.new 0 0 0

/-- Arena lookup (`node!` macro). -/
def nd (nodes : List Node) (idx : ℕ) : Node := nodes.getD idx dummyNode

/-- `signed_area` over `data[start..end]` (shoelace, clockwise-positive). -/
def signedArea (data : List Point) (start endI : ℕ) : ℚ :=
  (((data.drop start).take (endI - start)).foldl
    (fun acc a => (acc.1 + (acc.2.x - a.x) * (a.y + acc.2.y), a))
    ((0 : ℚ), data.getD (endI - 1) ⟨0, 0⟩)).1

/-- `area`: signed area of a node triangle. -/
def area (p q r : Node) : ℚ :=
  (q.y - p.y) * (r.x - q.x) - (q.x - p.x) * (r.y - q.y)

/-- `equals`: coordinate equality of two nodes. -/
def equalsN (p1 p2 : Node) : Bool := p1.x == p2.x && p1.y == p2.y

/-- `point_in_triangle`. -/
def pointInTriangle (a b c p : Point) : Bool :=
  decide ((c.x - p.x) * (a.y - p.y) ≥ (a.x - p.x) * (c.y - p.y)) &&
  decide ((a.x - p.x) * (b.y - p.y) ≥ (b.x - p.x) * (a.y - p.y)) &&
  decide ((b.x - p.x) * (c.y - p.y) ≥ (c.x - p.x) * (b.y - p.y))

/-- `sign`. -/
def sign (v : ℚ) : ℤ :=
  (if v > 0 then 1 else 0) - (if v < 0 then 1 else 0)

/-- `on_segment`: for collinear `p, q, r`, whether `q` lies on segment `pr`. -/
def onSegment (p q r : Node) : Bool :=
  decide (q.x ≤ max p.x r.x) && decide (q.y ≤ max p.y r.y) &&
  decide (q.x ≥ min p.x r.x) && decide (q.y ≥ min p.y r.y)

/-- `intersects`: whether segments `p1 q1` and `p2 q2` intersect. -/
def intersects (p1 q1 p2 q2 : Node) : Bool :=
  let o1 := sign (area p1 q1 p2)
  let o2 := sign (area p1 q1 q2)
  let o3 := sign (area p2 q2 p1)
  let o4 := sign (area p2 q2 q1)
  (o1 != o2 && o3 != o4) ||
    (o3 == 0 && onSegment p2 p1 q2) ||
    (o4 == 0 && onSegment p2 q1 q2) ||
    (o2 == 0 && onSegment p1 q2 q1) ||
    (o1 == 0 && onSegment p1 p2 q1)

/-- `locally_inside`: whether the diagonal `a b` is locally inside at `a`. -/
def locallyInside (nodes : List Node) (a b : Node) : Bool :=
  let aPrev := nd nodes a.prevI
  let aNext := nd nodes a.nextI
  if area aPrev a aNext < 0 then
    decide (area a b aNext ≥ 0) && decide (area a aPrev b ≥ 0)
  else
    decide (area a b aPrev < 0) || decide (area a aNext b < 0)

/-- `sector_contains_sector`. -/
def sectorContainsSector (nodes : List Node) (m p : Node) : Bool :=
  decide (area (nd nodes m.prevI) m (nd nodes p.prevI) < 0) &&
  decide (area (nd nodes p.nextI) m (nd nodes m.nextI) < 0)

/-- Truncation of a nonnegative 64-bit value to a signed 32-bit one
(the closing `as i32` of `z_order`). -/
def toI32 (n : ℕ) : ℤ :=
  let m : ℕ := n % 2 ^ 32
  if m < 2 ^ 31 then (m : ℤ) else (m : ℤ) - 2 ^ 32

/-- `z_order`: Morton interleave of the coordinates scaled into 15-bit range.
(`to_u32` truncates the scaled float toward zero; both coordinates are
nonnegative in-range here, modelled by `Int.toNat ∘ floor`.) -/
def zOrder (xy : ℚ × ℚ) (minX minY invSize : ℚ) : ℤ :=
  let x : ℕ := Int.toNat ⌊(xy.1 - minX) * invSize⌋
  let y : ℕ := Int.toNat ⌊(xy.2 - minY) * invSize⌋
  let v : ℕ := (x <<< 32) ||| y
  let v := (v ||| (v <<< 8)) &&& 0x00ff00ff00ff00ff
  let v := (v ||| (v <<< 4)) &&& 0x0f0f0f0f0f0f0f0f
  let v := (v ||| (v <<< 2)) &&& 0x3333333333333333
  let v := (v ||| (v <<< 1)) &&& 0x5555555555555555
  toI32 ((v >>> 32) ||| (v <<< 1))

/-- `remove_node`: unlink a node from the ring (and the z-list), given the
removed node's link info; returns the arena and `(prev_i, next_i)`. -/
def removeNode (nodes0 : List Node) (pl : Node) : List Node × ℕ × ℕ :=
  let n1 := nodes0.set pl.prevI { nd nodes0 pl.prevI with nextI := pl.nextI }
  let n2 := match pl.prevZI with
    | some pzi =>
        if pzi = pl.prevI then
          n1.set pl.prevI { nd n1 pl.prevI with nextZI := pl.nextZI }
        else n1.set pzi { nd n1 pzi with nextZI := pl.nextZI }
    | none => n1
  let n3 := n2.set pl.nextI { nd n2 pl.nextI with prevI := pl.prevI }
  let n4 := match pl.nextZI with
    | some nzi =>
        if nzi = pl.nextI then
          n3.set pl.nextI { nd n3 pl.nextI with prevZI := pl.prevZI }
        else n3.set nzi { nd n3 nzi with prevZI := pl.prevZI }
    | none => n3
  (n4, pl.prevI, pl.nextI)

/-- `insert_node`: create a node (at index `nodes.length`) and link it after
`last` in the circular ring. -/
def insertNode (nodes : List Node) (i : ℕ) (x y : ℚ) (last : Option ℕ) :
    List Node × ℕ :=
  let pI := nodes.length
  match last with
  | some lastI =>
      let lastN := nd nodes lastI
      let lastNextI := lastN.nextI
      let p := { Node.new i x y with nextI := lastNextI, prevI := lastI }
      let nodes1 := nodes.set lastI { lastN with nextI := pI }
      let nodes2 := nodes1.set lastNextI { nd nodes1 lastNextI with prevI := pI }
      (nodes2 ++ [p], pI)
  | none =>
      let p := { Node.new i x y with prevI := pI, nextI := pI }
      (nodes ++ [p], pI)

/-- `split_polygon`: bridge `a`/`b` with duplicate nodes `a2`/`b2`
(at indices `nodes.length`, `nodes.length + 1`); returns `b2`'s index. -/
def splitPolygon (nodes : List Node) (aI bI : ℕ) : List Node × ℕ :=
  let a2I := nodes.length
  let b2I := nodes.length + 1
  let a := nd nodes aI
  let anI := a.nextI
  let nodes1 := nodes.set aI { a with nextI := bI }
  let a2 := { Node.new a.i a.x a.y with prevI := b2I, nextI := anI }
  let b := nd nodes1 bI
  let bpI := b.prevI
  let nodes2 := nodes1.set bI { b with prevI := aI }
  let b2 := { Node.new b.i b.x b.y with nextI := a2I, prevI := bpI }
  let nodes3 := nodes2.set anI { nd nodes2 anI with prevI := a2I }
  let nodes4 := nodes3.set bpI { nd nodes3 bpI with nextI := b2I }
  (nodes4 ++ [a2, b2], b2I)

/-- `Earcut::linked_list`: insert `data[start..end]` in the requested winding
order (forward when `clockwise == (signed_area > 0)`, else reversed) and drop
a closing duplicate vertex. -/
def linkedList (nodes : List Node) (data : List Point) (start endI : ℕ)
    (clockwise : Bool) : List Node × Option ℕ :=
  let idxs := (List.range (endI - start)).map (start + ·)
  let idxs2 := if clockwise = decide (signedArea data start endI > 0) then idxs
    else idxs.reverse
  let r := idxs2.foldl
    (fun (acc : List Node × Option ℕ) idx =>
      let d := data.getD idx ⟨0, 0⟩
      let ins := insertNode acc.1 idx d.x d.y acc.2
      (ins.1, some ins.2))
    (nodes, none)
  match r.2 with
  | none => (r.1, none)
  | some li =>
    let lastN := nd r.1 li
    if equalsN lastN (nd r.1 lastN.nextI) then
      let rem := removeNode r.1 lastN
      (rem.1, some rem.2.2)
    else (r.1, some li)


/-- The candidate-hit test shared by the three scan loops of
`is_ear_hashed`: inside the triangle's bbox, not `a` or `c`, inside the
triangle, and reflex. -/
def hashedHit (nodes : List Node) (aI cI : ℕ) (a b c : Node)
    (xyMin xyMax : ℚ × ℚ) (pI : ℕ) : Bool :=
  let p := nd nodes pI
  decide (p.x ≥ xyMin.1) && decide (p.x ≤ xyMax.1) &&
  decide (p.y ≥ xyMin.2) && decide (p.y ≤ xyMax.2) &&
  decide (pI ≠ aI) && decide (pI ≠ cI) &&
  pointInTriangle ⟨a.x, a.y⟩ ⟨b.x, b.y⟩ ⟨c.x, c.y⟩ ⟨p.x, p.y⟩ &&
  decide (area (nd nodes p.prevI) p (nd nodes p.nextI) ≥ 0)

/-- `is_ear`'s scan loop over the remaining ring (from `c.next` until `a`). -/
def isEarScan (nodes : List Node) (aI : ℕ) (a b c : Node) (xy0 xy1 : ℚ × ℚ) :
    ℕ → ℕ → ℕ → Bool
  | fuel, pPrevI, pI =>
    if pI = aI then true
    else
      match fuel with
      | 0 => true
      | fuel + 1 =>
        let p := nd nodes pI
        let pPrev := nd nodes pPrevI
        let pNext := nd nodes p.nextI
        if decide (p.x ≥ xy0.1) && decide (p.x ≤ xy1.1) &&
            decide (p.y ≥ xy0.2) && decide (p.y ≤ xy1.2) &&
            pointInTriangle ⟨a.x, a.y⟩ ⟨b.x, b.y⟩ ⟨c.x, c.y⟩ ⟨p.x, p.y⟩ &&
            decide (area pPrev p pNext ≥ 0) then false
        else isEarScan nodes aI a b c xy0 xy1 fuel pI p.nextI

/-- `is_ear`: reflex test, then no other ring vertex inside the candidate
triangle; returns the flag and the indices of `prev` and `next`. -/
def isEar (fuel : ℕ) (nodes : List Node) (earI : ℕ) : Bool × ℕ × ℕ :=
  let b := nd nodes earI
  let aI := b.prevI
  let cI := b.nextI
  let a := nd nodes aI
  let c := nd nodes cI
  if area a b c ≥ 0 then (false, aI, cI)
  else
    let x0 := min a.x (min b.x c.x)
    let y0 := min a.y (min b.y c.y)
    let x1 := max a.x (max b.x c.x)
    let y1 := max a.y (max b.y c.y)
    let p0I := c.nextI
    (isEarScan nodes aI a b c (x0, y0) (x1, y1) fuel (nd nodes p0I).prevI p0I,
      aI, cI)

/-- The joint two-direction z-order scan of `is_ear_hashed`; returns whether
a blocking point was found, and the scan positions for the tail loops. -/
def hashedBoth (nodes : List Node) (aI cI : ℕ) (a b c : Node)
    (xyMin xyMax : ℚ × ℚ) (minZ maxZ : ℤ) :
    ℕ → Option ℕ → Option ℕ → Bool × Option ℕ × Option ℕ
  | fuel, oP, oN =>
    match oP with
    | none => (false, oP, oN)
    | some pI =>
      if (nd nodes pI).z < minZ then (false, oP, oN)
      else
        match oN with
        | none => (false, oP, oN)
        | some nI =>
          if (nd nodes nI).z > maxZ then (false, oP, oN)
          else
            match fuel with
            | 0 => (false, oP, oN)
            | fuel + 1 =>
              if hashedHit nodes aI cI a b c xyMin xyMax pI then (true, oP, oN)
              else
                let oP2 := (nd nodes pI).prevZI
                if hashedHit nodes aI cI a b c xyMin xyMax nI then
                  (true, oP2, oN)
                else
                  hashedBoth nodes aI cI a b c xyMin xyMax minZ maxZ fuel oP2
                    ((nd nodes nI).nextZI)

/-- The decreasing-z tail loop of `is_ear_hashed`. -/
def hashedPrev (nodes : List Node) (aI cI : ℕ) (a b c : Node)
    (xyMin xyMax : ℚ × ℚ) (minZ : ℤ) : ℕ → Option ℕ → Bool
  | fuel, oP =>
    match oP with
    | none => false
    | some pI =>
      if (nd nodes pI).z < minZ then false
      else
        match fuel with
        | 0 => false
        | fuel + 1 =>
          if hashedHit nodes aI cI a b c xyMin xyMax pI then true
          else hashedPrev nodes aI cI a b c xyMin xyMax minZ fuel
            ((nd nodes pI).prevZI)

/-- The increasing-z tail loop of `is_ear_hashed`. -/
def hashedNext (nodes : List Node) (aI cI : ℕ) (a b c : Node)
    (xyMin xyMax : ℚ × ℚ) (maxZ : ℤ) : ℕ → Option ℕ → Bool
  | fuel, oN =>
    match oN with
    | none => false
    | some nI =>
      if (nd nodes nI).z > maxZ then false
      else
        match fuel with
        | 0 => false
        | fuel + 1 =>
          if hashedHit nodes aI cI a b c xyMin xyMax nI then true
          else hashedNext nodes aI cI a b c xyMin xyMax maxZ fuel
            ((nd nodes nI).nextZI)

/-- `is_ear_hashed`: like `is_ear` but scanning only the z-order
neighbourhood of the triangle's bbox. -/
def isEarHashed (fuel : ℕ) (nodes : List Node) (earI : ℕ)
    (minX minY invSize : ℚ) : Bool × ℕ × ℕ :=
  let b := nd nodes earI
  let aI := b.prevI
  let cI := b.nextI
  let a := nd nodes aI
  let c := nd nodes cI
  if area a b c ≥ 0 then (false, aI, cI)
  else
    let xyMin := (min a.x (min b.x c.x), min a.y (min b.y c.y))
    let xyMax := (max a.x (max b.x c.x), max a.y (max b.y c.y))
    let minZ := zOrder xyMin minX minY invSize
    let maxZ := zOrder xyMax minX minY invSize
    let r := hashedBoth nodes aI cI a b c xyMin xyMax minZ maxZ fuel
      b.prevZI b.nextZI
    if r.1 then (false, aI, cI)
    else if hashedPrev nodes aI cI a b c xyMin xyMax minZ fuel r.2.1 then
      (false, aI, cI)
    else if hashedNext nodes aI cI a b c xyMin xyMax maxZ fuel r.2.2 then
      (false, aI, cI)
    else (true, aI, cI)

/-- `filter_points`' loop: drop duplicate or collinear non-steiner vertices. -/
def filterPointsGo : ℕ → List Node → ℕ → ℕ → List Node × ℕ
  | fuel, nodes, endI, pI =>
    let p := nd nodes pI
    let pNext := nd nodes p.nextI
    if !p.steiner &&
        (equalsN p pNext || decide (area (nd nodes p.prevI) p pNext = 0)) then
      let rem := removeNode nodes p
      if rem.2.1 = rem.2.2 then (rem.1, rem.2.1)
      else
        match fuel with
        | 0 => (rem.1, rem.2.1)
        | fuel + 1 => filterPointsGo fuel rem.1 rem.2.1 rem.2.1
    else
      if p.nextI = endI then (nodes, endI)
      else
        match fuel with
        | 0 => (nodes, endI)
        | fuel + 1 => filterPointsGo fuel nodes endI p.nextI

/-- `filter_points` (`end_i` defaults to `start_i`). -/
def filterPoints (fuel : ℕ) (nodes : List Node) (startI : ℕ)
    (endIOpt : Option ℕ) : List Node × ℕ :=
  filterPointsGo fuel nodes (endIOpt.getD startI) startI

/-- `intersects_polygon`'s ring walk. -/
def intersectsPolygonGo (nodes : List Node) (aI bI : ℕ) : ℕ → ℕ → Bool
  | fuel, pI =>
    let p := nd nodes pI
    let a := nd nodes aI
    let b := nd nodes bI
    let pNext := nd nodes p.nextI
    if decide (p.i ≠ a.i) && decide (p.i ≠ b.i) && decide (pNext.i ≠ a.i) &&
        decide (pNext.i ≠ b.i) && intersects p pNext a b then true
    else if p.nextI = aI then false
    else
      match fuel with
      | 0 => false
      | fuel + 1 => intersectsPolygonGo nodes aI bI fuel p.nextI

/-- `intersects_polygon`: does the diagonal `a b` cross any polygon edge? -/
def intersectsPolygon (fuel : ℕ) (nodes : List Node) (aI bI : ℕ) : Bool :=
  intersectsPolygonGo nodes aI bI fuel aI

/-- `middle_inside`'s ring walk (even-odd ray cast from the midpoint). -/
def middleInsideGo (nodes : List Node) (aI : ℕ) (px py : ℚ) :
    ℕ → ℕ → Bool → Bool
  | fuel, pI, inside =>
    let p := nd nodes pI
    let pNext := nd nodes p.nextI
    let c : Bool := (decide (p.y > py) != decide (pNext.y > py)) &&
      decide (pNext.y ≠ p.y) &&
      decide (px < (pNext.x - p.x) * (py - p.y) / (pNext.y - p.y) + p.x)
    let inside2 := if c then !inside else inside
    if p.nextI = aI then inside2
    else
      match fuel with
      | 0 => inside2
      | fuel + 1 => middleInsideGo nodes aI px py fuel p.nextI inside2

/-- `middle_inside`: is the diagonal's midpoint inside the polygon? -/
def middleInside (fuel : ℕ) (nodes : List Node) (aI bI : ℕ) : Bool :=
  let a := nd nodes aI
  let b := nd nodes bI
  middleInsideGo nodes aI ((a.x + b.x) / 2) ((a.y + b.y) / 2) fuel aI false

/-- `is_valid_diagonal` (`a_next`/`a_prev` are derived from the arena, with
the same values the Rust caller passes in). -/
def isValidDiagonal (fuel : ℕ) (nodes : List Node) (aI bI : ℕ) : Bool :=
  let a := nd nodes aI
  let b := nd nodes bI
  let aNext := nd nodes a.nextI
  let aPrev := nd nodes a.prevI
  let bNext := nd nodes b.nextI
  let bPrev := nd nodes b.prevI
  decide (aNext.i ≠ b.i) && decide (aPrev.i ≠ b.i) &&
  !(intersectsPolygon fuel nodes aI bI) &&
  ((locallyInside nodes a b && locallyInside nodes b a &&
    middleInside fuel nodes aI bI &&
    (decide (area aPrev a bPrev ≠ 0) || decide (area a bPrev b ≠ 0))) ||
   (equalsN a b && decide (area aPrev a aNext > 0) &&
    decide (area bPrev b bNext > 0)))

/-- `cure_local_intersections`' loop. -/
def cureGo : ℕ → List Node → ℕ → ℕ → List ℕ → List Node × ℕ × List ℕ
  | fuel, nodes, startI, pI, tris =>
    match fuel with
    | 0 => (nodes, startI, tris)
    | fuel + 1 =>
      let p := nd nodes pI
      let pNextI := p.nextI
      let pNext := nd nodes pNextI
      let bI := pNext.nextI
      let a := nd nodes p.prevI
      let b := nd nodes bI
      if !(equalsN a b) && intersects a p pNext b &&
          locallyInside nodes a b && locallyInside nodes b a then
        let tris1 := tris ++ [a.i, p.i, b.i]
        let bNextI := b.nextI
        let n1 := (removeNode nodes p).1
        let pnl := nd n1 pNextI
        let n2 := (removeNode n1 pnl).1
        if bNextI = bI then
          let f := filterPoints fuel n2 bNextI none
          (f.1, f.2, tris1)
        else cureGo fuel n2 bI bNextI tris1
      else
        if p.nextI = startI then
          let f := filterPoints fuel nodes p.nextI none
          (f.1, f.2, tris)
        else cureGo fuel nodes startI p.nextI tris

/-- `cure_local_intersections`: resolve the local two-edge crossing pattern,
emitting a triangle per cure, then `filter_points`. -/
def cureLocalIntersections (fuel : ℕ) (nodes : List Node) (startI : ℕ)
    (tris : List ℕ) : List Node × ℕ × List ℕ :=
  cureGo fuel nodes startI startI tris

/-- `get_leftmost`'s ring walk. -/
def getLeftmostGo (nodes : List Node) (startI : ℕ) : ℕ → ℕ → ℕ → ℕ
  | fuel, pI, lmI =>
    let p := nd nodes pI
    let lm := nd nodes lmI
    let lmI2 := if p.x < lm.x ∨ (p.x = lm.x ∧ p.y < lm.y) then pI else lmI
    if p.nextI = startI then lmI2
    else
      match fuel with
      | 0 => lmI2
      | fuel + 1 => getLeftmostGo nodes startI fuel p.nextI lmI2

/-- `get_leftmost`. -/
def getLeftmost (fuel : ℕ) (nodes : List Node) (startI : ℕ) : ℕ :=
  getLeftmostGo nodes startI fuel startI startI

/-- `qx` comparison of `find_hole_bridge`'s first phase: `qx` starts at
negative infinity (ℚ has none, so `none` stands for it). -/
def qxLt (qx : Option ℚ) (x : ℚ) : Prop :=
  match qx with
  | none => True
  | some v => x > v

instance (qx : Option ℚ) (x : ℚ) : Decidable (qxLt qx x) := by
  unfold qxLt
  cases qx <;> infer_instance

/-- First phase of `find_hole_bridge`: ray-cast to the left from the hole's
leftmost vertex; the Boolean is the early `hole touches outer segment`
return. -/
def fhbPhase1 (nodes : List Node) (hx hy : ℚ) (outerI : ℕ) :
    ℕ → ℕ → Option ℚ → Option ℕ → Bool × Option ℕ × Option ℚ
  | fuel, pI, qx, mI =>
    let p := nd nodes pI
    let pNext := nd nodes p.nextI
    let step : Option ℚ × Option ℕ × Bool :=
      if hy ≤ p.y ∧ hy ≥ pNext.y ∧ pNext.y ≠ p.y then
        let x := p.x + (hy - p.y) * (pNext.x - p.x) / (pNext.y - p.y)
        if x ≤ hx ∧ qxLt qx x then
          (some x, some (if p.x < pNext.x then pI else p.nextI), x = hx)
        else (qx, mI, false)
      else (qx, mI, false)
    if step.2.2 then (true, step.2.1, step.1)
    else if p.nextI = outerI then (false, step.2.1, step.1)
    else
      match fuel with
      | 0 => (false, step.2.1, step.1)
      | fuel + 1 => fhbPhase1 nodes hx hy outerI fuel p.nextI step.1 step.2.1

/-- `tan_min` comparisons (starts at positive infinity, `none`). -/
def tanLt (t : ℚ) (tanMin : Option ℚ) : Prop :=
  match tanMin with
  | none => True
  | some v => t < v

instance (t : ℚ) (tanMin : Option ℚ) : Decidable (tanLt t tanMin) := by
  unfold tanLt
  cases tanMin <;> infer_instance

def tanEq (t : ℚ) (tanMin : Option ℚ) : Prop :=
  match tanMin with
  | none => False
  | some v => t = v

instance (t : ℚ) (tanMin : Option ℚ) : Decidable (tanEq t tanMin) := by
  unfold tanEq
  cases tanMin <;> infer_instance

/-- Second phase of `find_hole_bridge`: among points inside the cast
triangle, pick the visible one minimising the angle to the ray (`mx`, `my`
are the coordinates of the phase-1 candidate, fixed for the whole scan). -/
def fhbPhase2 (nodes : List Node) (holeI : ℕ) (hx hy mx my qx : ℚ)
    (stopI : ℕ) : ℕ → ℕ → ℕ → Option ℚ → ℕ
  | fuel, pI, mI, tanMin =>
    let p := nd nodes pI
    let m := nd nodes mI
    let hole := nd nodes holeI
    let pick : Bool :=
      if hx ≥ p.x ∧ p.x ≥ mx ∧ hx ≠ p.x ∧
          pointInTriangle ⟨if hy < my then hx else qx, hy⟩ ⟨mx, my⟩
            ⟨if hy < my then qx else hx, hy⟩ ⟨p.x, p.y⟩ then
        let tan := |hy - p.y| / (hx - p.x)
        locallyInside nodes p hole &&
          (decide (tanLt tan tanMin) ||
            (decide (tanEq tan tanMin) &&
              (decide (p.x > m.x) ||
                (decide (p.x = m.x) && sectorContainsSector nodes m p))))
      else false
    let mI2 := if pick then pI else mI
    let tanMin2 := if pick then some (|hy - p.y| / (hx - p.x)) else tanMin
    if p.nextI = stopI then mI2
    else
      match fuel with
      | 0 => mI2
      | fuel + 1 => fhbPhase2 nodes holeI hx hy mx my qx stopI fuel p.nextI
        mI2 tanMin2

/-- `find_hole_bridge`. -/
def findHoleBridge (fuel : ℕ) (nodes : List Node) (holeI outerI : ℕ) :
    Option ℕ :=
  let hole := nd nodes holeI
  let r := fhbPhase1 nodes hole.x hole.y outerI fuel outerI none none
  if r.1 then r.2.1
  else
    match r.2.1 with
    | none => none
    | some mI =>
      let m := nd nodes mI
      some (fhbPhase2 nodes holeI hole.x hole.y m.x m.y (r.2.2.getD 0) mI fuel
        mI mI none)

/-- `eliminate_hole`: bridge the hole into the outer ring via
`split_polygon`, then `filter_points` around both cuts. -/
def eliminateHole (fuel : ℕ) (nodes : List Node) (holeI outerI : ℕ) :
    List Node × ℕ :=
  match findHoleBridge fuel nodes holeI outerI with
  | none => (nodes, outerI)
  | some bridgeI =>
    let sp := splitPolygon nodes bridgeI holeI
    let f1 := filterPoints fuel sp.1 sp.2 (some (nd sp.1 sp.2).nextI)
    let f2 := filterPoints fuel f1.1 bridgeI (some (nd f1.1 bridgeI).nextI)
    (f2.1, f2.2)

/-- `eliminate_holes`: build each hole ring, queue its leftmost node, sort
left-to-right, and splice each hole into the outer ring. -/
def eliminateHoles (fuel : ℕ) (nodes : List Node) (data : List Point)
    (holeIndices : List ℕ) (outerI : ℕ) : List Node × ℕ :=
  let n := holeIndices.length
  let built := (List.range n).foldl
    (fun (acc : List Node × List (ℕ × ℚ)) k =>
      let start := holeIndices.getD k 0
      let endI := if k < n - 1 then holeIndices.getD (k + 1) 0
        else data.length
      let ll := linkedList acc.1 data start endI false
      match ll.2 with
      | some listI =>
        let list := nd ll.1 listI
        let n2 := if listI = list.nextI then
            ll.1.set listI { list with steiner := true }
          else ll.1
        let lmI := getLeftmost fuel n2 listI
        (n2, acc.2 ++ [(lmI, (nd n2 lmI).x)])
      | none => (ll.1, acc.2))
    (nodes, [])
  let sorted := built.2.mergeSort (fun a b => decide (a.2 ≤ b.2))
  sorted.foldl (fun (acc : List Node × ℕ) q => eliminateHole fuel acc.1 q.1 acc.2)
    (built.1, outerI)

/-- One take of the merge step of `sort_linked` (unlink head, set its
`prev_z` to the current tail, advance). -/
def takeZ (nodes : List Node) (tailI : Option ℕ) (iS : ℕ) :
    List Node × Option ℕ × ℕ :=
  let e := nd nodes iS
  (nodes.set iS { e with prevZI := tailI }, e.nextZI, iS)

/-- The element selection of `sort_linked`'s merge loop; `none` means the
merge of this run pair is finished. -/
def mergePick (nodes : List Node) (tailI : Option ℕ) (pI qI : Option ℕ)
    (pSize qSize : ℕ) :
    Option (List Node × Option ℕ × Option ℕ × ℕ × ℕ × ℕ) :=
  if pSize > 0 then
    match pI with
    | none => none
    | some pIs =>
      if qSize > 0 then
        match qI with
        | some qIs =>
          if (nd nodes pIs).z ≤ (nd nodes qIs).z then
            let t := takeZ nodes tailI pIs
            some (t.1, t.2.1, qI, pSize - 1, qSize, t.2.2)
          else
            let t := takeZ nodes tailI qIs
            some (t.1, pI, t.2.1, pSize, qSize - 1, t.2.2)
        | none =>
          let t := takeZ nodes tailI pIs
          some (t.1, t.2.1, qI, pSize - 1, qSize, t.2.2)
      else
        let t := takeZ nodes tailI pIs
        some (t.1, t.2.1, qI, pSize - 1, qSize, t.2.2)
  else if qSize > 0 then
    match qI with
    | some qIs =>
      let t := takeZ nodes tailI qIs
      some (t.1, pI, t.2.1, pSize, qSize - 1, t.2.2)
    | none => none
  else none

/-- `sort_linked`'s merge loop over one pair of runs; returns the arena, the
next `p_i` (the final `q_i`), the tail and the list head. -/
def mergeLoop : ℕ → List Node → Option ℕ → Option ℕ → ℕ → ℕ → Option ℕ →
    Option ℕ → List Node × Option ℕ × Option ℕ × Option ℕ
  | fuel, nodes, pI, qI, pSize, qSize, tailI, listI =>
    match fuel with
    | 0 => (nodes, qI, tailI, listI)
    | fuel + 1 =>
      match mergePick nodes tailI pI qI pSize qSize with
      | none => (nodes, qI, tailI, listI)
      | some (n1, pI2, qI2, pSize2, qSize2, eI) =>
        let step : List Node × Option ℕ :=
          match tailI with
          | some t => (n1.set t { nd n1 t with nextZI := some eI }, listI)
          | none => (n1, some eI)
        mergeLoop fuel step.1 pI2 qI2 pSize2 qSize2 (some eI) step.2

/-- The run scan of `sort_linked` (`for _ in 1..in_size`): advances `q_i` and
counts `p_size`. -/
def qScan (nodes : List Node) : ℕ → Option ℕ → ℕ → Option ℕ × ℕ
  | 0, qI, pSize => (qI, pSize)
  | k + 1, qI, pSize =>
    match qI with
    | none => (qI, pSize)
    | some i => qScan nodes k ((nd nodes i).nextZI) (pSize + 1)

/-- `sort_linked`'s middle loop (`while let Some(p_i_s) = p_i`). -/
def middleLoop (inSize : ℕ) : ℕ → List Node → Option ℕ → Option ℕ →
    Option ℕ → ℕ → List Node × Option ℕ × Option ℕ × ℕ
  | fuel, nodes, pI, tailI, listI, numMerges =>
    match pI with
    | none => (nodes, tailI, listI, numMerges)
    | some pIs =>
      match fuel with
      | 0 => (nodes, tailI, listI, numMerges)
      | fuel + 1 =>
        let scan := qScan nodes (inSize - 1) ((nd nodes pIs).nextZI) 1
        let m := mergeLoop fuel nodes (some pIs) scan.1 scan.2 inSize tailI
          listI
        middleLoop inSize fuel m.1 m.2.1 m.2.2.1 m.2.2.2 (numMerges + 1)

/-- `sort_linked`'s outer pass loop (run length doubles each pass). -/
def sortOuter : ℕ → List Node → Option ℕ → ℕ → List Node
  | 0, nodes, _, _ => nodes
  | fuel + 1, nodes, listI, inSize =>
    let m := middleLoop inSize fuel nodes listI none none 0
    let n2 :=
      match m.2.1 with
      | some t => m.1.set t { nd m.1 t with nextZI := none }
      | none => m.1
    if m.2.2.2 ≤ 1 then n2
    else sortOuter fuel n2 m.2.2.1 (inSize * 2)

/-- `sort_linked` (Simon Tatham's linked-list merge sort on the z-list). -/
def sortLinked (fuel : ℕ) (nodes : List Node) (listI : ℕ) : List Node :=
  sortOuter fuel nodes (some listI) 1

/-- `index_curve`'s ring walk: assign z-order values and seed the z-links. -/
def indexCurveGo (minX minY invSize : ℚ) :
    ℕ → List Node → ℕ → ℕ → List Node
  | fuel, nodes, startI, pI =>
    let p := nd nodes pI
    let z2 := if p.z = 0 then zOrder (p.x, p.y) minX minY invSize else p.z
    let nodes1 := nodes.set pI
      { p with z := z2, prevZI := some p.prevI, nextZI := some p.nextI }
    if p.nextI = startI then nodes1
    else
      match fuel with
      | 0 => nodes1
      | fuel + 1 => indexCurveGo minX minY invSize fuel nodes1 startI p.nextI

/-- `index_curve`: seed the z-links, cut the cycle open at `start`, and merge
sort by z-value. -/
def indexCurve (fuel : ℕ) (nodes : List Node) (startI : ℕ)
    (minX minY invSize : ℚ) : List Node :=
  let nodes1 := indexCurveGo minX minY invSize fuel nodes startI startI
  let p := nd nodes1 startI
  match p.prevZI with
  | some ppz =>
    let nodes2 := nodes1.set startI { p with prevZI := none }
    let nodes3 := nodes2.set ppz { nd nodes2 ppz with nextZI := none }
    sortLinked fuel nodes3 startI
  | none => sortLinked fuel nodes1 startI

mutual

/-- `earcut_linked`: z-index the ring on the first pass of a hashed run, then
slice ears (`earcutLoop`). -/
def earcutLinked (fuel : ℕ) (nodes : List Node) (earI : ℕ) (tris : List ℕ)
    (minX minY invSize : ℚ) (pass : ℕ) : List Node × List ℕ :=
  let nodes1 := if pass = 0 ∧ invSize ≠ 0 then
      indexCurve fuel nodes earI minX minY invSize
    else nodes
  earcutLoop fuel nodes1 earI earI tris minX minY invSize pass

/-- The main ear-slicing loop of `earcut_linked`, including the three-stage
fallback ladder on a stalled full pass: filter points (pass 0 → 1), cure
local self-intersections (pass 1 → 2), split the polygon in two
(pass 2). -/
def earcutLoop (fuel : ℕ) (nodes : List Node) (earI stopI : ℕ)
    (tris : List ℕ) (minX minY invSize : ℚ) (pass : ℕ) :
    List Node × List ℕ :=
  let ear := nd nodes earI
  if ear.prevI = ear.nextI then (nodes, tris)
  else
    match fuel with
    | 0 => (nodes, tris)
    | fuel + 1 =>
      let ni := ear.nextI
      let r := if invSize ≠ 0 then isEarHashed fuel nodes earI minX minY invSize
        else isEar fuel nodes earI
      if r.1 then
        let prevN := nd nodes r.2.1
        let nextN := nd nodes r.2.2
        let nextVi := nextN.i
        let nextNextI := nextN.nextI
        let tris1 := tris ++ [prevN.i, ear.i, nextVi]
        let nodes1 := (removeNode nodes ear).1
        earcutLoop fuel nodes1 nextNextI nextNextI tris1 minX minY invSize pass
      else
        if ni = stopI then
          if pass = 0 then
            let f := filterPoints fuel nodes ni none
            earcutLinked fuel f.1 f.2 tris minX minY invSize 1
          else if pass = 1 then
            let f := filterPoints fuel nodes ni none
            let c := cureLocalIntersections fuel f.1 f.2 tris
            earcutLinked fuel c.1 c.2.1 c.2.2 minX minY invSize 2
          else
            splitEarcutOuter fuel nodes ni ni tris minX minY invSize
        else
          earcutLoop fuel nodes ni stopI tris minX minY invSize pass

/-- `split_earcut`'s outer loop over diagonal start vertices. -/
def splitEarcutOuter (fuel : ℕ) (nodes : List Node) (startI ai : ℕ)
    (tris : List ℕ) (minX minY invSize : ℚ) : List Node × List ℕ :=
  match fuel with
  | 0 => (nodes, tris)
  | fuel + 1 =>
    let a := nd nodes ai
    match splitEarcutInner fuel nodes ai (nd nodes a.nextI).nextI tris minX
      minY invSize with
    | some result => result
    | none =>
      let ai2 := a.nextI
      if ai2 = startI then (nodes, tris)
      else splitEarcutOuter fuel nodes startI ai2 tris minX minY invSize

/-- `split_earcut`'s inner scan over diagonal end vertices: on a valid
diagonal, split the polygon, filter around the cuts and recurse on both
halves (`none` = no diagonal from this start vertex). -/
def splitEarcutInner (fuel : ℕ) (nodes : List Node) (ai bi : ℕ)
    (tris : List ℕ) (minX minY invSize : ℚ) :
    Option (List Node × List ℕ) :=
  let a := nd nodes ai
  if bi = a.prevI then none
  else
    match fuel with
    | 0 => none
    | fuel + 1 =>
      let b := nd nodes bi
      if a.i ≠ b.i ∧ isValidDiagonal fuel nodes ai bi then
        let sp := splitPolygon nodes ai bi
        let f1 := filterPoints fuel sp.1 ai (some (nd sp.1 ai).nextI)
        let f2 := filterPoints fuel f1.1 sp.2 (some (nd f1.1 sp.2).nextI)
        let r1 := earcutLinked fuel f2.1 f1.2 tris minX minY invSize 0
        let r2 := earcutLinked fuel r1.1 f2.2 r1.2 minX minY invSize 0
        some r2
      else splitEarcutInner fuel nodes ai b.nextI tris minX minY invSize

end

/-- `Earcut::earcut_impl`: build the outer ring, splice holes, set up the
z-order acceleration for large inputs, and run `earcut_linked`. -/
def earcutImpl (fuel : ℕ) (data : List Point) (holeIndices : List ℕ) :
    List ℕ :=
  let nodes0 : List Node := [dummyNode]
  let hasHoles := !holeIndices.isEmpty
  let outerLen := if hasHoles then holeIndices.getD 0 0 else data.length
  let ll := linkedList nodes0 data 0 outerLen true
  match ll.2 with
  | none => []
  | some outerI0 =>
    let outerN := nd ll.1 outerI0
    if outerN.nextI = outerN.prevI then []
    else
      let eh := if hasHoles then
          eliminateHoles fuel ll.1 data holeIndices outerI0
        else (ll.1, outerI0)
      let mmi : ℚ × ℚ × ℚ :=
        if data.length > 80 then
          let d0 := data.getD 0 ⟨0, 0⟩
          let tl := ((data.take outerLen).drop 1)
          let maxX := tl.foldl (fun acc b => max acc b.x) d0.x
          let maxY := tl.foldl (fun acc b => max acc b.y) d0.y
          let minX := tl.foldl (fun acc b => min acc b.x) d0.x
          let minY := tl.foldl (fun acc b => min acc b.y) d0.y
          let invSize0 := max (maxX - minX) (maxY - minY)
          (minX, minY, if invSize0 ≠ 0 then 32767 / invSize0 else invSize0)
        else (0, 0, 0)
      (earcutLinked fuel eh.1 eh.2 [] mmi.1 mmi.2.1 mmi.2.2 0).2

/-- `Earcut::earcut` (with `clear_out = true`, a fresh output vector): fewer
than 3 points yields `(false, [])`. -/
def earcut (fuel : ℕ) (data : List Point) (holeIndices : List ℕ) :
    Bool × List ℕ :=
  if data.length < 3 then (false, [])
  else (true, earcutImpl fuel data holeIndices)


/-- Trace of `Earcut::earcut` on a clockwise triangle (positive shoelace
sum): one ear cut, emitting `[1, 2, 0]`. -/
theorem earcutCW (fuel : ℕ) (p0 p1 p2 : Point)
    (hS : decide (signedArea [p0, p1, p2] 0 3 > 0) = true)
    (hne : (p2.x == p0.x && p2.y == p0.y) = false)
    (harea : (p2.y - p1.y) * (p0.x - p2.x) - (p2.x - p1.x) * (p0.y - p2.y) < 0) :
    earcut (fuel + 1) [p0, p1, p2] [] = (true, [1, 2, 0]) := by
  have hrange : (List.range (3 - 0)).map (0 + ·) = [0, 1, 2] := rfl
  have hll : linkedList [dummyNode] [p0, p1, p2] 0 3 true =
      ([dummyNode,
        ⟨0, 0, p0.x, p0.y, 3, 2, none, none, false⟩,
        ⟨1, 0, p1.x, p1.y, 1, 3, none, none, false⟩,
        ⟨2, 0, p2.x, p2.y, 2, 1, none, none, false⟩], some 3) := by
    simp only [linkedList, hrange, hS]
    simp [insertNode, nd, dummyNode, Node.new, equalsN, hne, List.set]
  have h2 : earcut (fuel + 1) [p0, p1, p2] [] =
      (true, (earcutLoop (fuel + 1)
        [dummyNode,
          ⟨0, 0, p0.x, p0.y, 3, 2, none, none, false⟩,
          ⟨1, 0, p1.x, p1.y, 1, 3, none, none, false⟩,
          ⟨2, 0, p2.x, p2.y, 2, 1, none, none, false⟩] 3 3 [] 0 0 0 0).2) := by
    simp only [earcut, earcutImpl, earcutLinked, List.isEmpty_nil, Bool.not_true,
      Bool.false_eq_true, if_false, List.length_cons, List.length_nil]
    norm_num [hll, nd]
  rw [h2]
  rw [earcutLoop.eq_def]
  simp [isEar, nd, dummyNode, Node.new, List.set, area, not_le.mpr harea,
    isEarScan.eq_def, removeNode]
  rw [earcutLoop.eq_def]
  simp [nd]

/-- Trace of `Earcut::earcut` on a counter-clockwise triangle (the ring is
built reversed): one ear cut, emitting `[1, 0, 2]`. -/
theorem earcutCCW (fuel : ℕ) (p0 p1 p2 : Point)
    (hS : decide (signedArea [p0, p1, p2] 0 3 > 0) = false)
    (hne : (p0.x == p2.x && p0.y == p2.y) = false)
    (harea : (p0.y - p1.y) * (p2.x - p0.x) - (p0.x - p1.x) * (p2.y - p0.y) < 0) :
    earcut (fuel + 1) [p0, p1, p2] [] = (true, [1, 0, 2]) := by
  have hrange : ((List.range (3 - 0)).map (0 + ·)).reverse = [2, 1, 0] := rfl
  have hll : linkedList [dummyNode] [p0, p1, p2] 0 3 true =
      ([dummyNode,
        ⟨2, 0, p2.x, p2.y, 3, 2, none, none, false⟩,
        ⟨1, 0, p1.x, p1.y, 1, 3, none, none, false⟩,
        ⟨0, 0, p0.x, p0.y, 2, 1, none, none, false⟩], some 3) := by
    simp only [linkedList, hS, Bool.true_eq_false, if_false, hrange]
    simp [insertNode, nd, dummyNode, Node.new, equalsN, hne, List.set]
  have h2 : earcut (fuel + 1) [p0, p1, p2] [] =
      (true, (earcutLoop (fuel + 1)
        [dummyNode,
          ⟨2, 0, p2.x, p2.y, 3, 2, none, none, false⟩,
          ⟨1, 0, p1.x, p1.y, 1, 3, none, none, false⟩,
          ⟨0, 0, p0.x, p0.y, 2, 1, none, none, false⟩] 3 3 [] 0 0 0 0).2) := by
    simp only [earcut, earcutImpl, earcutLinked, List.isEmpty_nil, Bool.not_true,
      Bool.false_eq_true, if_false, List.length_cons, List.length_nil]
    norm_num [hll, nd]
  rw [h2]
  rw [earcutLoop.eq_def]
  simp [isEar, nd, dummyNode, Node.new, List.set, area, not_le.mpr harea,
    isEarScan.eq_def, removeNode]
  rw [earcutLoop.eq_def]
  simp [nd]

/-- C2: for every non-degenerate (non-zero signed area, hence
non-self-intersecting) 3-point input, `Earcut::earcut` succeeds and emits
exactly one triangle — three indices — whose index set is a permutation of
the input vertex indices `{0, 1, 2}`; `fuel + 1` shows one loop round of
iteration budget beyond the mandatory ear cut suffices. -/
theorem c2_earcut_triangle (fuel : ℕ) (p0 p1 p2 : Point)
    (h : signedArea [p0, p1, p2] 0 3 ≠ 0) :
    (earcut (fuel + 1) [p0, p1, p2] []).1 = true ∧
    (earcut (fuel + 1) [p0, p1, p2] []).2.length = 3 ∧
    (earcut (fuel + 1) [p0, p1, p2] []).2.Perm [0, 1, 2] := by
  have hSform : signedArea [p0, p1, p2] 0 3 =
      (p2.x - p0.x) * (p0.y + p2.y) + (p0.x - p1.x) * (p1.y + p0.y) +
        (p1.x - p2.x) * (p2.y + p1.y) := by
    simp [signedArea]
    try ring
  rcases lt_trichotomy (signedArea [p0, p1, p2] 0 3) 0 with hneg | hzero | hpos
  · have hS : decide (signedArea [p0, p1, p2] 0 3 > 0) = false :=
      decide_eq_false (not_lt.mpr (le_of_lt hneg))
    have hne : (p0.x == p2.x && p0.y == p2.y) = false := by
      cases hb : (p0.x == p2.x && p0.y == p2.y) with
      | false => rfl
      | true =>
        exfalso
        rw [Bool.and_eq_true, beq_iff_eq, beq_iff_eq] at hb
        exact h (by rw [hSform, hb.1, hb.2]; ring)
    have harea : (p0.y - p1.y) * (p2.x - p0.x) - (p0.x - p1.x) * (p2.y - p0.y) < 0 := by
      have he : (p0.y - p1.y) * (p2.x - p0.x) - (p0.x - p1.x) * (p2.y - p0.y) =
          signedArea [p0, p1, p2] 0 3 := by
        rw [hSform]; ring
      rw [he]; exact hneg
    rw [earcutCCW fuel p0 p1 p2 hS hne harea]
    exact ⟨rfl, rfl, by decide⟩
  · exact absurd hzero h
  · have hS : decide (signedArea [p0, p1, p2] 0 3 > 0) = true := decide_eq_true hpos
    have hne : (p2.x == p0.x && p2.y == p0.y) = false := by
      cases hb : (p2.x == p0.x && p2.y == p0.y) with
      | false => rfl
      | true =>
        exfalso
        rw [Bool.and_eq_true, beq_iff_eq, beq_iff_eq] at hb
        exact h (by rw [hSform, hb.1, hb.2]; ring)
    have harea : (p2.y - p1.y) * (p0.x - p2.x) - (p2.x - p1.x) * (p0.y - p2.y) < 0 := by
      have he : (p2.y - p1.y) * (p0.x - p2.x) - (p2.x - p1.x) * (p0.y - p2.y) =
          -signedArea [p0, p1, p2] 0 3 := by
        rw [hSform]; ring
      rw [he]
      linarith
    rw [earcutCW fuel p0 p1 p2 hS hne harea]
    exact ⟨rfl, rfl, by decide⟩

/-- C2 witness: the right triangle `(0,0), (4,0), (0,3)`. -/
theorem c2_earcut_triangle_witness :
    (earcut 1 [⟨0, 0⟩, ⟨4, 0⟩, ⟨0, 3⟩] []).1 = true ∧
    (earcut 1 [⟨0, 0⟩, ⟨4, 0⟩, ⟨0, 3⟩] []).2.length = 3 ∧
    (earcut 1 [⟨0, 0⟩, ⟨4, 0⟩, ⟨0, 3⟩] []).2.Perm [0, 1, 2] :=
  c2_earcut_triangle 0 ⟨0, 0⟩ ⟨4, 0⟩ ⟨0, 3⟩ (by norm_num [signedArea])

/-! ### Mesh assembly and the fill paths (`paint/draw_list.rs`) -/

/-- Modelled from the spec: `paint::mesh::Vertex` — position, color and
texture UV (`paint::mesh` is not under src/). -/
structure Vertex where
  pos : Point
  color : Color
  uv : ℚ × ℚ
deriving DecidableEq, Repr

/-- Modelled from the spec: `paint::mesh::Mesh` — vertex list plus triangle
index list (the texture identifier plays no role in the fill functions;
`reserve_prim` is an allocation hint and a no-op here). -/
structure Mesh where
  vertices : List Vertex
  indices : List ℕ
deriving DecidableEq, Repr

/-- `Mesh::add_vertex`. -/
def Mesh.addVertex (m : Mesh) (pos : Point) (color : Color) (uv : ℚ × ℚ) :
    Mesh :=
  { m with vertices := m.vertices ++ [Vertex.mk pos color uv] }

/-- `Mesh::add_triangle`. -/
def Mesh.addTriangle (m : Mesh) (a b c : ℕ) : Mesh :=
  { m with indices := m.indices ++ [a, b, c] }

/-- The empty mesh. -/
def Mesh.empty : Mesh := ⟨[], []⟩

/-- The reference white-texture UV (`WHITE_UV` / `DEFAULT_UV_COORD`,
`(0, 0)`). -/
def WHITE_UV : ℚ × ℚ := (0, 0)

/-- Scalar multiplication on points (`Vec2 * f32`). -/
def Point.scale (p : Point) (k : ℚ) : Point := ⟨p.x * k, p.y * k⟩

/-- `is_path_closed` (`paint/draw_list.rs`): first and last point exist and
are exactly equal. -/
def isPathClosed (path : List Point) : Bool :=
  match path.head?, path.getLast? with
  | some first, some last => first == last
  | _, _ => false

/-- The `points_count` computed at the top of `fill_path_convex` and
`fill_path_concave`: the length, minus one for a closed ring. -/
def pointsCountOf (path : List Point) : ℕ :=
  if isPathClosed path then path.length - 1 else path.length

/-- `get_path_bounds` (`path/geo.rs`), as `(min, max)` corner pairs.  The
Rust fold starts from `±∞`, which ℚ lacks; on a nonempty list (the only use
in the fill paths) starting from the first point is equivalent, and the
empty case yields a degenerate zero rectangle like `Rect::default()`. -/
def getPathBounds : List Point → (ℚ × ℚ) × ℚ × ℚ
  | [] => ((0, 0), (0, 0))
  | p :: rest =>
    rest.foldl
      (fun acc q =>
        ((min acc.1.1 q.x, min acc.1.2 q.y), (max acc.2.1 q.x, max acc.2.2 q.y)))
      ((p.x, p.y), (p.x, p.y))

/-- `chunks_exact(3)` over a triangle index list. -/
def chunks3 : List ℕ → List (ℕ × ℕ × ℕ)
  | a :: b :: c :: rest => (a, b, c) :: chunks3 rest
  | _ => []

/-- Body of `fill_path_convex` after truncation (`path` is the truncated
list, of length `points_count`): textured-UV setup, then either the feathered
inner/outer ring or a plain fan.  `normalize` and `rot90` are parameters —
`Vec2::normalize`/`rot90` live in the missing `ara_math` crate (`normalize`
divides by an `f32` square-root length).  The source's debug-only
`debug_assert!(cw_signed_area(path) > 0.0)` is an assertion, not behavior,
and is not modelled. -/
def fillPathConvexCore (normalize rot90 : Point → Point) (mesh : Mesh)
    (path : List Point) (fill : Color) (textured : Bool) (feathering : ℚ)
    (fadeTo : Option Color) : Mesh :=
  let n := path.length
  let bounds := if textured then getPathBounds path else ((0, 0), (0, 0))
  let bMin := bounds.1
  let bMax := bounds.2
  let getUv := fun (p : Point) =>
    ((if bMax.1 ≠ bMin.1 then (p.x - bMin.1) / (bMax.1 - bMin.1) else 0),
      (if bMax.2 ≠ bMin.2 then (p.y - bMin.2) / (bMax.2 - bMin.2) else 0))
  if feathering > 0 then
    let outColor := fadeTo.getD { fill with a := 0 }
    let idxInner := mesh.vertices.length
    let idxOuter := idxInner + 1
    let mesh1 := (List.range (n - 2)).foldl
      (fun m k =>
        m.addTriangle (idxInner + 2 * (k + 2 - 1)) idxInner
          (idxInner + 2 * (k + 2)))
      mesh
    let normals := (List.range n).map
      (fun i1 => rot90 (normalize
        (path.getD i1 ⟨0, 0⟩ - path.getD ((i1 + n - 1) % n) ⟨0, 0⟩)))
    (List.range n).foldl
      (fun m i1 =>
        let i0 := (i1 + n - 1) % n
        let n0 := normals.getD i0 ⟨0, 0⟩
        let n1 := normals.getD i1 ⟨0, 0⟩
        let dm := ((normalize (n0 + n1)).scale feathering).scale (1 / 2)
        let p := path.getD i0 ⟨0, 0⟩
        let posInner := p - dm
        let posOuter := p + dm
        let m1 := m.addVertex posInner fill (getUv posInner)
        let m2 := m1.addVertex posOuter outColor (getUv posOuter)
        let m3 := m2.addTriangle (idxInner + i1 * 2) (idxInner + i0 * 2)
          (idxOuter + 2 * i0)
        m3.addTriangle (idxOuter + i0 * 2) (idxOuter + i1 * 2)
          (idxInner + 2 * i1))
      mesh1
  else
    let idx := mesh.vertices.length
    let mesh1 := path.foldl (fun m p => m.addVertex p fill (getUv p)) mesh
    (List.range (n - 2)).foldl
      (fun m k => m.addTriangle idx (idx + (k + 2 - 1)) (idx + (k + 2)))
      mesh1

/-- `fill_path_convex` (`paint/draw_list.rs`): drop a closing duplicate
point, reject fewer than 3 points or a transparent fill, then fill. -/
def fillPathConvex (normalize rot90 : Point → Point) (mesh : Mesh)
    (path : List Point) (fill : Color) (textured : Bool) (feathering : ℚ)
    (fadeTo : Option Color) : Mesh :=
  let pointsCount := pointsCountOf path
  if pointsCount < 3 ∨ fill.isTransparent then mesh
  else
    fillPathConvexCore normalize rot90 mesh (path.take pointsCount) fill
      textured feathering fadeTo

/-- Body of `fill_path_concave` after truncation: ear-clip triangulation
(the vertex-index remap in the feathered branch, or an offset adjustment in
the plain branch), plus the feathering ring when requested. -/
def fillPathConcaveCore (fuel : ℕ) (normalize rot90 : Point → Point)
    (mesh : Mesh) (path : List Point) (fill : Color) (feathering : ℚ) :
    Mesh :=
  let n := path.length
  if feathering > 0 then
    let outColor := { fill with a := 0 }
    let idxInner := mesh.vertices.length
    let idxOuter := idxInner + 1
    let tempIndices := (earcut fuel path []).2
    let mesh1 := (chunks3 tempIndices).foldl
      (fun m t =>
        m.addTriangle (idxInner + ((n - 1 - t.1) % n) * 2)
          (idxInner + ((n - 1 - t.2.1) % n) * 2)
          (idxInner + ((n - 1 - t.2.2) % n) * 2))
      mesh
    let normals := (List.range n).map
      (fun i1 => rot90 (normalize
        (path.getD i1 ⟨0, 0⟩ - path.getD ((i1 + n - 1) % n) ⟨0, 0⟩)))
    (List.range n).foldl
      (fun m i1 =>
        let i0 := (i1 + n - 1) % n
        let n0 := normals.getD i0 ⟨0, 0⟩
        let n1 := normals.getD i1 ⟨0, 0⟩
        let dm := ((normalize (n0 + n1)).scale feathering).scale (1 / 2)
        let p := path.getD i0 ⟨0, 0⟩
        let posInner := p - dm
        let posOuter := p + dm
        let m1 := m.addVertex posInner fill WHITE_UV
        let m2 := m1.addVertex posOuter outColor WHITE_UV
        let m3 := m2.addTriangle (idxInner + i1 * 2) (idxInner + i0 * 2)
          (idxOuter + 2 * i0)
        m3.addTriangle (idxOuter + i0 * 2) (idxOuter + i1 * 2)
          (idxInner + 2 * i1))
      mesh1
  else
    let vertexOffset := mesh.vertices.length
    let mesh1 := { mesh with
      vertices := mesh.vertices ++ path.map (fun p => Vertex.mk p fill WHITE_UV) }
    { mesh1 with
      indices := mesh1.indices ++ (earcut fuel path []).2.map (· + vertexOffset) }

/-- `fill_path_concave` (`paint/draw_list.rs`). -/
def fillPathConcave (fuel : ℕ) (normalize rot90 : Point → Point)
    (mesh : Mesh) (path : List Point) (fillStyle : FillStyle)
    (feathering : ℚ) : Mesh :=
  let pointsCount := pointsCountOf path
  if pointsCount < 3 ∨ fillStyle.color.isTransparent then mesh
  else
    fillPathConcaveCore fuel normalize rot90 mesh (path.take pointsCount)
      fillStyle.color feathering

theorem isPathClosed_of_ends (path : List Point) (p : Point)
    (hhead : path.head? = some p) (hlast : path.getLast? = some p) :
    isPathClosed path = true := by
  unfold isPathClosed
  rw [hhead, hlast]
  simp

theorem truncation_closed_eq (path : List Point) (p : Point)
    (hhead : path.head? = some p) (hlast : path.getLast? = some p)
    (hopen : isPathClosed path.dropLast = false) :
    pointsCountOf path.dropLast = pointsCountOf path ∧
      path.dropLast.take (pointsCountOf path.dropLast) =
        path.take (pointsCountOf path) := by
  have hclosed : isPathClosed path = true := isPathClosed_of_ends path p hhead hlast
  have hc : pointsCountOf path = path.length - 1 := by
    unfold pointsCountOf
    rw [hclosed]
    simp
  have hc' : pointsCountOf path.dropLast = path.length - 1 := by
    unfold pointsCountOf
    rw [hopen]
    simp [List.length_dropLast]
  refine ⟨hc'.trans hc.symm, ?_⟩
  rw [hc, hc', List.dropLast_eq_take, List.take_take, min_self]

/-- C10 counterexample: for the ring `[a, b, c, a, a]` — first and last
equal, but the remainder after dropping the duplicate, `[a, b, c, a]`, is
itself still closed — the closed form is truncated only once (to 4 points)
while the open form is truncated again (to 3 points), so the two forms
append different vertices and triangles, for the convex and the concave
fill alike. -/
theorem c10_closed_form_counterexample :
    isPathClosed [(⟨0, 0⟩ : Point), ⟨1, 0⟩, ⟨1, 1⟩, ⟨0, 0⟩, ⟨0, 0⟩] = true ∧
    isPathClosed
      (List.dropLast [(⟨0, 0⟩ : Point), ⟨1, 0⟩, ⟨1, 1⟩, ⟨0, 0⟩, ⟨0, 0⟩]) = true ∧
    fillPathConvex id id Mesh.empty
        [(⟨0, 0⟩ : Point), ⟨1, 0⟩, ⟨1, 1⟩, ⟨0, 0⟩, ⟨0, 0⟩] Color.RED false 0 none ≠
      fillPathConvex id id Mesh.empty
        (List.dropLast [(⟨0, 0⟩ : Point), ⟨1, 0⟩, ⟨1, 1⟩, ⟨0, 0⟩, ⟨0, 0⟩])
        Color.RED false 0 none ∧
    fillPathConcave 10 id id Mesh.empty
        [(⟨0, 0⟩ : Point), ⟨1, 0⟩, ⟨1, 1⟩, ⟨0, 0⟩, ⟨0, 0⟩] ⟨Color.RED⟩ 0 ≠
      fillPathConcave 10 id id Mesh.empty
        (List.dropLast [(⟨0, 0⟩ : Point), ⟨1, 0⟩, ⟨1, 1⟩, ⟨0, 0⟩, ⟨0, 0⟩])
        ⟨Color.RED⟩ 0 := by
  refine ⟨by decide, by decide, by decide, by decide⟩

/-- C10 (amended): for every point list whose first and last points are
exactly equal AND whose remainder after dropping the duplicate is not
itself closed, `fill_path_convex` and `fill_path_concave` drop the
duplicated last point before triangulating, and the closed form appends
exactly the same vertices and triangles to the mesh as the open form
without the duplicate. -/
theorem c10_fill_closed_ring_insensitive (normalize rot90 : Point → Point)
    (mesh : Mesh) (fill : Color) (textured : Bool) (feathering : ℚ)
    (fadeTo : Option Color) (fillStyle : FillStyle) (fuel : ℕ)
    (path : List Point) (p : Point)
    (hhead : path.head? = some p) (hlast : path.getLast? = some p)
    (hopen : isPathClosed path.dropLast = false) :
    fillPathConvex normalize rot90 mesh path fill textured feathering fadeTo =
      fillPathConvex normalize rot90 mesh path.dropLast fill textured
        feathering fadeTo ∧
    fillPathConcave fuel normalize rot90 mesh path fillStyle feathering =
      fillPathConcave fuel normalize rot90 mesh path.dropLast fillStyle
        feathering := by
  obtain ⟨hcount, htake⟩ := truncation_closed_eq path p hhead hlast hopen
  rw [hcount] at htake
  constructor
  · simp only [fillPathConvex, hcount, htake]
  · simp only [fillPathConcave, hcount, htake]

/-- Witness for the amended C10 at the ring `[(0,0), (1,0), (1,1), (0,0)]`,
whose open form `[(0,0), (1,0), (1,1)]` is not closed. -/
theorem c10_fill_closed_ring_insensitive_witness :
    ([(⟨0, 0⟩ : Point), ⟨1, 0⟩, ⟨1, 1⟩, ⟨0, 0⟩].head? = some (⟨0, 0⟩ : Point) ∧
      [(⟨0, 0⟩ : Point), ⟨1, 0⟩, ⟨1, 1⟩, ⟨0, 0⟩].getLast? = some (⟨0, 0⟩ : Point) ∧
      isPathClosed
        (List.dropLast [(⟨0, 0⟩ : Point), ⟨1, 0⟩, ⟨1, 1⟩, ⟨0, 0⟩]) = false) ∧
    (fillPathConvex id id Mesh.empty
        [(⟨0, 0⟩ : Point), ⟨1, 0⟩, ⟨1, 1⟩, ⟨0, 0⟩] Color.RED false 0 none =
      fillPathConvex id id Mesh.empty
        (List.dropLast [(⟨0, 0⟩ : Point), ⟨1, 0⟩, ⟨1, 1⟩, ⟨0, 0⟩])
        Color.RED false 0 none ∧
    fillPathConcave 10 id id Mesh.empty
        [(⟨0, 0⟩ : Point), ⟨1, 0⟩, ⟨1, 1⟩, ⟨0, 0⟩] ⟨Color.RED⟩ 0 =
      fillPathConcave 10 id id Mesh.empty
        (List.dropLast [(⟨0, 0⟩ : Point), ⟨1, 0⟩, ⟨1, 1⟩, ⟨0, 0⟩])
        ⟨Color.RED⟩ 0) :=
  ⟨⟨rfl, rfl, by decide⟩,
    c10_fill_closed_ring_insensitive id id Mesh.empty Color.RED false 0 none
      ⟨Color.RED⟩ 10 [⟨0, 0⟩, ⟨1, 0⟩, ⟨1, 1⟩, ⟨0, 0⟩] ⟨0, 0⟩ rfl rfl (by decide)⟩

end Ara
